import Mathlib

/-!
Verification development for the EstateIQ billing ledger core
(backend/apps/billing): charges, payments, allocations, monthly rent
charge generation, bulk rent posting and the delinquency (A/R aging)
report.

The Python services are shallowly embedded:
- monetary `Decimal` amounts become exact `Int` values (fixed-point cents;
  all comparisons and sums in the source are exact, so the scale is
  irrelevant);
- `datetime.date` becomes a `Date` structure ordered lexicographically,
  with Python's `(a - b).days` realised through a day-ordinal conversion;
- the Django ORM store becomes an explicit `Store` of fact lists; a row
  `create` appends; `transaction.atomic` plus a raised `ValidationError`
  becomes an `Except` value whose error branch returns the caller's
  original store (rollback);
- informational columns that no service reads (notes, method,
  external_ref, created_by) are omitted.
-/

/-- Calendar date (proleptic Gregorian), mirroring Python `datetime.date`. -/
structure Date where
  year : Int
  month : Nat
  day : Nat
deriving DecidableEq

/-- Python date `<`: lexicographic on (year, month, day). -/
def Date.lt (a b : Date) : Prop :=
  a.year < b.year ∨ (a.year = b.year ∧ (a.month < b.month ∨ (a.month = b.month ∧ a.day < b.day)))

/-- Python date `<=`: lexicographic on (year, month, day). -/
def Date.le (a b : Date) : Prop :=
  a.year < b.year ∨ (a.year = b.year ∧ (a.month < b.month ∨ (a.month = b.month ∧ a.day ≤ b.day)))

instance (a b : Date) : Decidable (Date.lt a b) := by
  unfold Date.lt; exact inferInstance

instance (a b : Date) : Decidable (Date.le a b) := by
  unfold Date.le; exact inferInstance

/-- Gregorian leap-year rule (as used by Python's `datetime`). -/
def isLeapYear (y : Int) : Bool :=
  y % 4 == 0 && (y % 100 != 0 || y % 400 == 0)

/-- Number of days in a calendar month; this is the value the source
computes as `(next_month - date.resolution).day`. -/
def daysInMonth (y : Int) (m : Nat) : Nat :=
  if m = 1 ∨ m = 3 ∨ m = 5 ∨ m = 7 ∨ m = 8 ∨ m = 10 ∨ m = 12 then 31
  else if m = 4 ∨ m = 6 ∨ m = 9 ∨ m = 11 then 30
  else if isLeapYear y then 29 else 28

/-- Day ordinal of a date (days-from-civil), so that Python's
`(a - b).days` is `a.toOrdinal - b.toOrdinal`. -/
def Date.toOrdinal (dt : Date) : Int :=
  let y : Int := if dt.month ≤ 2 then dt.year - 1 else dt.year
  let era : Int := Int.fdiv y 400
  let yoe : Int := y - era * 400
  let mp : Int := ((dt.month : Int) + 9) % 12
  let doy : Int := (153 * mp + 2) / 5 + (dt.day : Int) - 1
  let doe : Int := yoe * 365 + yoe / 4 - yoe / 100 + doy
  era * 146097 + doe - 719468

/-- Python `(a - b).days` for dates. -/
def daysBetween (a b : Date) : Int :=
  a.toOrdinal - b.toOrdinal

/-- `ChargeKind` text choices from billing/models.py. -/
inductive ChargeKind
  | rent
  | late_fee
  | misc
deriving DecidableEq

/-- A Charge row: an immutable fact that money is owed (billing/models.py).
`created_at` is the server creation timestamp, modelled as a monotone
sequence number taken from the store clock. -/
structure Charge where
  id : Nat
  organization_id : Nat
  lease_id : Nat
  kind : ChargeKind
  amount : Int
  due_date : Date
  created_at : Nat
deriving DecidableEq

/-- A Payment row: an immutable fact that money was received. -/
structure Payment where
  id : Nat
  organization_id : Nat
  lease_id : Nat
  amount : Int
deriving DecidableEq

/-- An Allocation row: applies part of a payment to a charge. -/
structure Allocation where
  id : Nat
  organization_id : Nat
  payment_id : Nat
  charge_id : Nat
  amount : Int
deriving DecidableEq

/-- A Lease row (leases/models.py), restricted to the fields the billing
services read: term dates, rent amount and rent due day.
`rent_amount = none` models a lease with no resolvable rent amount
(the `value is None` branch of `_get_rent_amount`). -/
structure Lease where
  id : Nat
  organization_id : Nat
  start_date : Date
  end_date : Option Date
  rent_amount : Option Int
  rent_due_day : Nat
deriving DecidableEq

/-- The durable store: the three billing fact tables plus the lease
directory, with primary-key counters and the `created_at` clock. -/
structure Store where
  charges : List Charge
  payments : List Payment
  allocations : List Allocation
  leases : List Lease
  nextChargeId : Nat
  nextAllocationId : Nat
  clock : Nat
deriving DecidableEq

/-- `AllocationService._charge_allocated_total`: sum of allocation amounts
referencing a charge. -/
def charge_allocated_total (s : Store) (chargeId : Nat) : Int :=
  ((s.allocations.filter (fun a => a.charge_id == chargeId)).map (fun a => a.amount)).sum

/-- `AllocationService._payment_allocated_total`: sum of allocation amounts
referencing a payment. -/
def payment_allocated_total (s : Store) (paymentId : Nat) : Int :=
  ((s.allocations.filter (fun a => a.payment_id == paymentId)).map (fun a => a.amount)).sum

/-- `AllocationService._remaining_charge_balance`: amount minus allocated,
clamped at zero. -/
def remaining_charge_balance (s : Store) (c : Charge) : Int :=
  let remaining := c.amount - charge_allocated_total s c.id
  if remaining > 0 then remaining else 0

/-- `Payment.objects.get(id=...)` (primary-key lookup). -/
def findPayment (s : Store) (paymentId : Nat) : Option Payment :=
  s.payments.find? (fun p => p.id == paymentId)

/-- `Lease.objects.get(id=...)` (primary-key lookup). -/
def findLease (s : Store) (leaseId : Nat) : Option Lease :=
  s.leases.find? (fun l => l.id == leaseId)

/-- The `charges_by_id` dict lookup of `allocate_payment_manual`: the dict
comprehension over `filter(id__in=...)` keeps, per id, the last row. -/
def findChargeById (cs : List Charge) (chargeId : Nat) : Option Charge :=
  (cs.filter (fun c => c.id == chargeId)).getLast?

/-- The errors the billing services raise (`ValidationError` messages),
plus the ORM lookup failures. -/
inductive BillingError
  | invalidRequest
  | insufficientPaymentBalance
  | chargeOverAllocation
  | unknownCharge (chargeId : Nat)
  | orgMismatch
  | leaseMismatch
  | paymentNotFound
  | leaseNotFound
  | invalidMonth
  | outOfLeaseTerm
  | missingRentAmount
  | nonPositiveRentAmount
deriving DecidableEq

instance {ε α : Type} [DecidableEq ε] [DecidableEq α] : DecidableEq (Except ε α) := fun a b =>
  match a, b with
  | .error e, .error f => decidable_of_iff (e = f) (by simp)
  | .error _, .ok _ => isFalse (by simp)
  | .ok _, .error _ => isFalse (by simp)
  | .ok x, .ok y => decidable_of_iff (x = y) (by simp)

/-- `AllocationRequest` dataclass. -/
structure AllocationRequest where
  charge_id : Nat
  amount : Int
deriving DecidableEq

/-- `AllocationResult` dataclass. -/
structure AllocationResult where
  payment_id : Nat
  allocated_total : Int
  unapplied_amount : Int
  allocation_ids : List Nat
deriving DecidableEq

/-- FIFO order of `allocate_payment_auto`'s charge query:
`order_by("due_date", "created_at", "id")`. -/
def chargeFifoLE (a b : Charge) : Prop :=
  Date.lt a.due_date b.due_date ∨
    (a.due_date = b.due_date ∧
      (a.created_at < b.created_at ∨ (a.created_at = b.created_at ∧ a.id ≤ b.id)))

instance (a b : Charge) : Decidable (chargeFifoLE a b) := by
  unfold chargeFifoLE; exact inferInstance

/-- The ordered open-charge queryset of `allocate_payment_auto`: charges of
the payment's organization and lease, sorted by (due_date, created_at, id).
The SQL ORDER BY keys form a total order (id is the primary key), realised
here by a stable insertion sort. -/
def autoSortedCharges (s : Store) (p : Payment) : List Charge :=
  List.insertionSort chargeFifoLE
    (s.charges.filter (fun c =>
      c.organization_id == p.organization_id && c.lease_id == p.lease_id))

/-- The Step 4 loop of `allocate_payment_auto`: walk the ordered charges,
skip settled ones, apply `min(remaining_payment, charge_remaining)`,
threading the in-transaction store.  Returns the store, the remaining
payment, the amount allocated by this call and the created allocation ids.
The boundary re-validation inside the loop is kept; a failure there aborts
the transaction. -/
def autoAllocLoop (p : Payment) :
    List Charge → Store → Int → Int → List Nat →
    Except BillingError (Store × Int × Int × List Nat)
  | [], s, rem, now, ids => .ok (s, rem, now, ids)
  | c :: cs, s, rem, now, ids =>
    if rem ≤ 0 then .ok (s, rem, now, ids)
    else if p.organization_id ≠ c.organization_id then .error .orgMismatch
    else if p.lease_id ≠ c.lease_id then .error .leaseMismatch
    else
      let chargeRemaining := remaining_charge_balance s c
      if chargeRemaining ≤ 0 then autoAllocLoop p cs s rem now ids
      else
        let amountToApply := min rem chargeRemaining
        let alloc : Allocation :=
          ⟨s.nextAllocationId, p.organization_id, p.id, c.id, amountToApply⟩
        let s' : Store :=
          { s with allocations := s.allocations ++ [alloc],
                   nextAllocationId := s.nextAllocationId + 1 }
        autoAllocLoop p cs s' (rem - amountToApply) (now + amountToApply) (ids ++ [alloc.id])

/-- `AllocationService.allocate_payment_auto`.  Returns the committed store
(the input store when the transaction aborts) and the result or error. -/
def allocate_payment_auto (s : Store) (paymentId : Nat) :
    Store × Except BillingError AllocationResult :=
  match findPayment s paymentId with
  | none => (s, .error .paymentNotFound)
  | some p =>
    let alreadyAllocated := payment_allocated_total s p.id
    let remainingPayment := p.amount - alreadyAllocated
    if remainingPayment ≤ 0 then
      (s, .ok ⟨p.id, alreadyAllocated, 0, []⟩)
    else
      match autoAllocLoop p (autoSortedCharges s p) s remainingPayment 0 [] with
      | .error e => (s, .error e)
      | .ok (s', rem, now, ids) =>
        (s', .ok ⟨p.id, alreadyAllocated + now, if rem > 0 then rem else 0, ids⟩)

/-- The Step 3 loop of `allocate_payment_manual`: apply each requested
allocation in caller order, validating existence, boundaries, payment
balance and charge balance, threading the in-transaction store. -/
def manualAllocLoop (p : Payment) :
    List AllocationRequest → Store → Int → Int → List Nat →
    Except BillingError (Store × Int × Int × List Nat)
  | [], s, rem, now, ids => .ok (s, rem, now, ids)
  | r :: rs, s, rem, now, ids =>
    match findChargeById s.charges r.charge_id with
    | none => .error (.unknownCharge r.charge_id)
    | some c =>
      if p.organization_id ≠ c.organization_id then .error .orgMismatch
      else if p.lease_id ≠ c.lease_id then .error .leaseMismatch
      else if r.amount > rem then .error .insufficientPaymentBalance
      else
        let chargeRemaining := remaining_charge_balance s c
        if r.amount > chargeRemaining then .error .chargeOverAllocation
        else
          let alloc : Allocation :=
            ⟨s.nextAllocationId, p.organization_id, p.id, c.id, r.amount⟩
          let s' : Store :=
            { s with allocations := s.allocations ++ [alloc],
                     nextAllocationId := s.nextAllocationId + 1 }
          manualAllocLoop p rs s' (rem - r.amount) (now + r.amount) (ids ++ [alloc.id])

/-- `AllocationService.allocate_payment_manual`.  Returns the committed
store (the input store when validation fails or the transaction aborts)
and the result or error. -/
def allocate_payment_manual (s : Store) (paymentId : Nat)
    (requests : List AllocationRequest) :
    Store × Except BillingError AllocationResult :=
  if requests.isEmpty then (s, .error .invalidRequest)
  else if requests.any (fun r => decide (r.amount ≤ 0)) then (s, .error .invalidRequest)
  else
    match findPayment s paymentId with
    | none => (s, .error .paymentNotFound)
    | some p =>
      let alreadyAllocated := payment_allocated_total s p.id
      let remainingPayment := p.amount - alreadyAllocated
      if remainingPayment ≤ 0 then
        (s, .ok ⟨p.id, alreadyAllocated, 0, []⟩)
      else
        match manualAllocLoop p requests s remainingPayment 0 [] with
        | .error e => (s, .error e)
        | .ok (s', rem, now, ids) =>
          (s', .ok ⟨p.id, alreadyAllocated + now, if rem > 0 then rem else 0, ids⟩)

/-- `GenerateMonthResult` dataclass (rent_charge_service.py). -/
structure GenerateMonthResult where
  lease_id : Nat
  due_date : Date
  created : Bool
  charge_id : Nat
deriving DecidableEq

/-- `RentChargeService._month_start`. -/
def month_start (year : Int) (month : Nat) : Date :=
  ⟨year, month, 1⟩

/-- Python `some_date.replace(day=1)`. -/
def Date.replaceDay1 (d : Date) : Date :=
  ⟨d.year, d.month, 1⟩

/-- `RentChargeService._get_due_day`: on the actual Lease model the first
matching field is `rent_due_day`; Python truthiness makes a zero value
fall through to the default 1. -/
def get_due_day (l : Lease) : Nat :=
  if l.rent_due_day ≠ 0 then l.rent_due_day else 1

/-- `RentChargeService._lease_due_date_for_month`: clamp the due day to the
last day of the month. -/
def lease_due_date_for_month (l : Lease) (year : Int) (month : Nat) : Date :=
  ⟨year, month, min (get_due_day l) (daysInMonth year month)⟩

/-- `RentChargeService._get_rent_amount`: on the actual Lease model the
first matching field is `rent_amount`; a missing value raises. -/
def get_rent_amount (l : Lease) : Except BillingError Int :=
  match l.rent_amount with
  | none => .error .missingRentAmount
  | some v => .ok v

/-- The idempotency lookup predicate of Step 6: an existing Charge for
(organization, lease, RENT, due_date). -/
def rentChargeKeyMatch (orgId leaseId : Nat) (dueDate : Date) (c : Charge) : Bool :=
  c.organization_id == orgId && c.lease_id == leaseId &&
    c.kind == ChargeKind.rent && c.due_date == dueDate

/-- `RentChargeService.generate_monthly_rent_charge`.  Returns the
committed store (the input store when the call fails or the charge already
exists) and the result or error. -/
def generate_monthly_rent_charge (s : Store) (leaseId : Nat) (year : Int) (month : Nat) :
    Store × Except BillingError GenerateMonthResult :=
  if month < 1 ∨ month > 12 then (s, .error .invalidMonth)
  else
    match findLease s leaseId with
    | none => (s, .error .leaseNotFound)
    | some l =>
      let dueDate := lease_due_date_for_month l year month
      let monthStart := month_start year month
      if Date.lt monthStart l.start_date.replaceDay1 then (s, .error .outOfLeaseTerm)
      else if (match l.end_date with
               | some e => decide (Date.lt e.replaceDay1 monthStart)
               | none => false) then (s, .error .outOfLeaseTerm)
      else
        match get_rent_amount l with
        | .error e => (s, .error e)
        | .ok rentAmount =>
          if rentAmount ≤ 0 then (s, .error .nonPositiveRentAmount)
          else
            match s.charges.find? (rentChargeKeyMatch l.organization_id l.id dueDate) with
            | some existing => (s, .ok ⟨l.id, dueDate, false, existing.id⟩)
            | none =>
              let charge : Charge :=
                ⟨s.nextChargeId, l.organization_id, l.id, ChargeKind.rent,
                  rentAmount, dueDate, s.clock⟩
              ({ s with charges := s.charges ++ [charge],
                        nextChargeId := s.nextChargeId + 1,
                        clock := s.clock + 1 },
               .ok ⟨l.id, dueDate, true, charge.id⟩)

/-- `RentPostingError` dataclass (rent_posting_service.py). -/
structure RentPostingError where
  lease_id : Nat
  error : BillingError
deriving DecidableEq

/-- `RentPostingRunResult` dataclass. -/
structure RentPostingRunResult where
  as_of : Date
  leases_processed : Nat
  charges_created : Nat
  charges_existing : Nat
  created_charge_ids : List Nat
  errors : List RentPostingError
deriving DecidableEq

/-- The Step 3 loop of `run_current_month_for_org`: each lease is processed
in its own transaction; any error is recorded and the run continues. -/
def rentPostingLoop (year : Int) (month : Nat) :
    List Lease → Store → Nat → Nat → List Nat → List RentPostingError →
    Store × Nat × Nat × List Nat × List RentPostingError
  | [], s, created, existing, ids, errs => (s, created, existing, ids, errs)
  | l :: ls, s, created, existing, ids, errs =>
    match generate_monthly_rent_charge s l.id year month with
    | (s', .ok r) =>
      if r.created then
        rentPostingLoop year month ls s' (created + 1) existing (ids ++ [r.charge_id]) errs
      else
        rentPostingLoop year month ls s' created (existing + 1) ids errs
    | (s', .error e) =>
      rentPostingLoop year month ls s' created existing ids (errs ++ [⟨l.id, e⟩])

/-- `RentPostingService.run_current_month_for_org`.  The `as_of` default of
`date.today()` is supplied by the caller here.  The function is total: no
error escapes the per-lease loop. -/
def run_current_month_for_org (s : Store) (organizationId : Nat) (asOf : Date) :
    Store × RentPostingRunResult :=
  let leases := s.leases.filter (fun l => l.organization_id == organizationId)
  match rentPostingLoop asOf.year asOf.month leases s 0 0 [] [] with
  | (s', created, existing, ids, errs) =>
    (s', ⟨asOf, leases.length, created, existing, ids, errs⟩)

/-- `AgingBuckets` dataclass (delinquency_service.py). -/
structure AgingBuckets where
  current_0_30 : Int
  days_31_60 : Int
  days_61_90 : Int
  days_90_plus : Int
deriving DecidableEq

/-- `LeaseDelinquencyRow` dataclass. -/
structure LeaseDelinquencyRow where
  lease_id : Nat
  total_outstanding : Int
  oldest_due_date : Option Date
  buckets : AgingBuckets
deriving DecidableEq

/-- The mutable `by_lease[lease_id]` record of `compute_for_org`. -/
structure LeaseAgg where
  total : Int
  oldest_due : Option Date
  b0_30 : Int
  b31_60 : Int
  b61_90 : Int
  b90p : Int
deriving DecidableEq

/-- Lookup in the `by_lease` dict (insertion-ordered association list). -/
def lookupAgg (m : List (Nat × LeaseAgg)) (leaseId : Nat) : Option LeaseAgg :=
  (m.find? (fun kv => kv.1 == leaseId)).map (fun kv => kv.2)

/-- Write-back to the `by_lease` dict: replace in place, else append
(Python dicts preserve insertion order). -/
def setAgg : List (Nat × LeaseAgg) → Nat → LeaseAgg → List (Nat × LeaseAgg)
  | [], k, v => [(k, v)]
  | kv :: rest, k, v =>
    if kv.1 = k then (k, v) :: rest else kv :: setAgg rest k v

/-- The bucket index chosen by the Step 3 if/elif chain:
0 for age ≤ 30, 1 for ≤ 60, 2 for ≤ 90, 3 otherwise. -/
def agingBucketIndex (daysPastDue : Int) : Nat :=
  if daysPastDue ≤ 30 then 0
  else if daysPastDue ≤ 60 then 1
  else if daysPastDue ≤ 90 then 2
  else 3

/-- Add an amount to the bucket selected by the if/elif chain. -/
def LeaseAgg.addToBucket (rec : LeaseAgg) (k : Nat) (x : Int) : LeaseAgg :=
  if k = 0 then { rec with b0_30 := rec.b0_30 + x }
  else if k = 1 then { rec with b31_60 := rec.b31_60 + x }
  else if k = 2 then { rec with b61_90 := rec.b61_90 + x }
  else { rec with b90p := rec.b90p + x }

/-- The per-charge record update of the Step 2/3 loop of `compute_for_org`:
fetch (or initialise) the lease's record, add the remaining balance to the
total, update the oldest due date, and add the remaining balance to the
aging bucket of `(as_of - due_date).days`. -/
def delinquencyStep (asOf : Date) (m : List (Nat × LeaseAgg))
    (c : Charge) (remaining : Int) : LeaseAgg :=
  let daysPastDue := daysBetween asOf c.due_date
  let rec0 : LeaseAgg :=
    match lookupAgg m c.lease_id with
    | some r => r
    | none => ⟨0, some c.due_date, 0, 0, 0, 0⟩
  let rec1 : LeaseAgg :=
    { rec0 with
      total := rec0.total + remaining,
      oldest_due :=
        match rec0.oldest_due with
        | none => some c.due_date
        | some o => if Date.lt c.due_date o then some c.due_date else some o }
  rec1.addToBucket (agingBucketIndex daysPastDue) remaining

/-- The Step 2/3 loop of `compute_for_org`: skip charges with remaining
balance ≤ 0, otherwise fold the per-lease record update over the charge
list. -/
def delinquencyFold (s : Store) (asOf : Date) :
    List Charge → List (Nat × LeaseAgg) → List (Nat × LeaseAgg)
  | [], m => m
  | c :: cs, m =>
    let allocated := charge_allocated_total s c.id
    let remaining := c.amount - allocated
    if remaining ≤ 0 then delinquencyFold s asOf cs m
    else delinquencyFold s asOf cs (setAgg m c.lease_id (delinquencyStep asOf m c remaining))

/-- Descending-total comparison used by the final
`results.sort(key=..., reverse=True)`. -/
def rowTotalGE (a b : LeaseDelinquencyRow) : Prop :=
  b.total_outstanding ≤ a.total_outstanding

instance (a b : LeaseDelinquencyRow) : Decidable (rowTotalGE a b) := by
  unfold rowTotalGE; exact inferInstance

/-- `DelinquencyService.compute_for_org`: org-scoped charges due on or
before `as_of`, grouped per lease with aging buckets, then stably sorted
by total outstanding descending (Python's sort is stable; `reverse=True`
keeps the insertion order of equal keys). -/
def compute_for_org (s : Store) (organizationId : Nat) (asOf : Date) :
    List LeaseDelinquencyRow :=
  let charges := s.charges.filter (fun c =>
    c.organization_id == organizationId && decide (Date.le c.due_date asOf))
  let m := delinquencyFold s asOf charges []
  let rows := m.map (fun kv =>
    LeaseDelinquencyRow.mk kv.1 kv.2.total kv.2.oldest_due
      ⟨kv.2.b0_30, kv.2.b31_60, kv.2.b61_90, kv.2.b90p⟩)
  List.insertionSort rowTotalGE rows

/-- Store well-formedness: primary keys behave like primary keys.  Charge
ids stay below the id counter, allocations reference generated charge ids,
and no two charge or payment rows share an id (DB primary keys). -/
def StoreWf (s : Store) : Prop :=
  (∀ c ∈ s.charges, c.id < s.nextChargeId) ∧
  (∀ a ∈ s.allocations, a.charge_id < s.nextChargeId) ∧
  (s.charges.map (fun c => c.id)).Nodup ∧
  (s.payments.map (fun p => p.id)).Nodup

instance (s : Store) : Decidable (StoreWf s) := by
  unfold StoreWf; exact inferInstance

/-- The central ledger invariant (spec §8): no charge and no payment is
over-allocated. -/
def LedgerInv (s : Store) : Prop :=
  (∀ c ∈ s.charges, charge_allocated_total s c.id ≤ c.amount) ∧
  (∀ p ∈ s.payments, payment_allocated_total s p.id ≤ p.amount)

instance (s : Store) : Decidable (LedgerInv s) := by
  unfold LedgerInv; exact inferInstance

/-- The FIFO walk exactly as the spec words it (§4.1): iterate the ordered
open charges, skip any whose remaining balance is ≤ 0, apply
`min(remainingPayment, chargeRemaining)`, stop when the remainder reaches 0
or charges are exhausted.  Charge balances are read against the fixed
pre-call store; it is the refinement target for `allocate_payment_auto`. -/
def fifoSpecWalk (s : Store) : Int → List Charge → List (Nat × Int)
  | _, [] => []
  | rem, c :: cs =>
    if rem ≤ 0 then []
    else
      let chargeRemaining := remaining_charge_balance s c
      if chargeRemaining ≤ 0 then fifoSpecWalk s rem cs
      else (c.id, min rem chargeRemaining) :: fifoSpecWalk s (rem - min rem chargeRemaining) cs

/-- Sum of remaining balances of the charges of lease `L` within `cs` that
have positive remaining balance and whose age lands in aging bucket `k`. -/
def contribFilter (s : Store) (asOf : Date) (L : Nat) (k : Nat) (cs : List Charge) : Int :=
  ((cs.filter (fun c => c.lease_id == L &&
      decide (0 < c.amount - charge_allocated_total s c.id) &&
      agingBucketIndex (daysBetween asOf c.due_date) == k)).map
    (fun c => c.amount - charge_allocated_total s c.id)).sum

/-- Sum of remaining balances of the charges of lease `L` within `cs` that
have positive remaining balance. -/
def contribTotal (s : Store) (L : Nat) (cs : List Charge) : Int :=
  ((cs.filter (fun c => c.lease_id == L &&
      decide (0 < c.amount - charge_allocated_total s c.id))).map
    (fun c => c.amount - charge_allocated_total s c.id)).sum

/-- The org-scoped charges a delinquency run considers: due on or before
`as_of`. -/
def dueCharges (s : Store) (organizationId : Nat) (asOf : Date) : List Charge :=
  s.charges.filter (fun c =>
    c.organization_id == organizationId && decide (Date.le c.due_date asOf))

/-- The spec's aging bucket `k` for lease `L` (§4.4): the summed remaining
balance of the lease's charges due on or before `as_of` with positive
remaining balance whose `as_of - due_date` age selects bucket `k`
(0: 0-30, 1: 31-60, 2: 61-90, 3: 90+); charges with remaining ≤ 0 are
excluded entirely. -/
def leaseBucketSum (s : Store) (organizationId : Nat) (asOf : Date) (L : Nat) (k : Nat) : Int :=
  contribFilter s asOf L k (dueCharges s organizationId asOf)

/-- The spec's total outstanding for lease `L`: summed positive remaining
balances of its charges due on or before `as_of`. -/
def leaseOutstanding (s : Store) (organizationId : Nat) (asOf : Date) (L : Nat) : Int :=
  contribTotal s L (dueCharges s organizationId asOf)

/-- Projection of an optional per-lease record, zero when absent. -/
def aggField (o : Option LeaseAgg) (f : LeaseAgg → Int) : Int :=
  match o with
  | none => 0
  | some r => f r

/-- Witness store: one charge, one half-allocated payment, one lease. -/
def stC1w : Store :=
  { charges := [⟨1, 1, 1, ChargeKind.rent, 100, ⟨2026, 2, 1⟩, 0⟩],
    payments := [⟨1, 1, 1, 100⟩],
    allocations := [⟨1, 1, 1, 1, 50⟩],
    leases := [⟨1, 1, ⟨2026, 1, 1⟩, none, some 900, 1⟩],
    nextChargeId := 2, nextAllocationId := 2, clock := 5 }

/-- Witness store for the FIFO example: two $1200 rent charges due
2026-02-01 and 2026-03-01 and a $1500 payment. -/
def stC2w : Store :=
  { charges := [⟨1, 1, 1, ChargeKind.rent, 1200, ⟨2026, 2, 1⟩, 0⟩,
                ⟨2, 1, 1, ChargeKind.rent, 1200, ⟨2026, 3, 1⟩, 1⟩],
    payments := [⟨1, 1, 1, 1500⟩],
    allocations := [], leases := [],
    nextChargeId := 3, nextAllocationId := 1, clock := 2 }

/-- Counterexample store: payment 1 ($100) is already fully allocated to
charge 1, so its unapplied remainder is zero. -/
def stC3x : Store :=
  { charges := [⟨1, 1, 1, ChargeKind.rent, 100, ⟨2026, 2, 1⟩, 0⟩],
    payments := [⟨1, 1, 1, 100⟩],
    allocations := [⟨1, 1, 1, 1, 100⟩], leases := [],
    nextChargeId := 2, nextAllocationId := 2, clock := 1 }

/-- Witness store: an unallocated $100 payment and two $80 charges. -/
def stC3w : Store :=
  { charges := [⟨1, 1, 1, ChargeKind.rent, 80, ⟨2026, 2, 1⟩, 0⟩,
                ⟨2, 1, 1, ChargeKind.rent, 80, ⟨2026, 3, 1⟩, 1⟩],
    payments := [⟨1, 1, 1, 100⟩],
    allocations := [], leases := [],
    nextChargeId := 3, nextAllocationId := 1, clock := 2 }

/-- Counterexample store: payment 1 ($100) fully allocated to charge 1. -/
def stC4x : Store :=
  { charges := [⟨1, 1, 1, ChargeKind.rent, 100, ⟨2026, 2, 1⟩, 0⟩],
    payments := [⟨1, 1, 1, 100⟩],
    allocations := [⟨1, 1, 1, 1, 100⟩], leases := [],
    nextChargeId := 2, nextAllocationId := 2, clock := 1 }

/-- Witness store: an unallocated $100 payment and one $80 charge; a
manual request list whose second entry names a nonexistent charge makes
the loop fail after its first allocation was created. -/
def stC5w : Store :=
  { charges := [⟨1, 1, 1, ChargeKind.rent, 80, ⟨2026, 2, 1⟩, 0⟩],
    payments := [⟨1, 1, 1, 100⟩],
    allocations := [], leases := [],
    nextChargeId := 2, nextAllocationId := 1, clock := 1 }

/-- Witness store: one valid in-term lease with rent $1200, no charges. -/
def stC6w : Store :=
  { charges := [], payments := [], allocations := [],
    leases := [⟨7, 1, ⟨2026, 1, 1⟩, none, some 1200, 1⟩],
    nextChargeId := 1, nextAllocationId := 1, clock := 0 }

/-- Witness store: two leases of org 1; lease 8 has no resolvable rent
amount, lease 9 is fully valid. -/
def stC7w : Store :=
  { charges := [], payments := [], allocations := [],
    leases := [⟨8, 1, ⟨2026, 1, 1⟩, none, none, 1⟩,
               ⟨9, 1, ⟨2026, 1, 1⟩, none, some 900, 1⟩],
    nextChargeId := 1, nextAllocationId := 1, clock := 0 }

/-- Witness store for the aging example: as of 2026-05-01, charges of
$100 (due 2026-04-21), $200 with a $50 allocation (due 2026-03-22),
$300 (due 2026-02-20) and $400 (due 2026-01-01), all on lease 1. -/
def stC8w : Store :=
  { charges := [⟨1, 1, 1, ChargeKind.rent, 100, ⟨2026, 4, 21⟩, 0⟩,
                ⟨2, 1, 1, ChargeKind.rent, 200, ⟨2026, 3, 22⟩, 1⟩,
                ⟨3, 1, 1, ChargeKind.rent, 300, ⟨2026, 2, 20⟩, 2⟩,
                ⟨4, 1, 1, ChargeKind.rent, 400, ⟨2026, 1, 1⟩, 3⟩],
    payments := [⟨1, 1, 1, 50⟩],
    allocations := [⟨1, 1, 1, 2, 50⟩], leases := [],
    nextChargeId := 5, nextAllocationId := 2, clock := 4 }

/-- Counterexample store: leases 5 and 3 each owe $100, and lease 5's
charge is scanned first. -/
def stC9x : Store :=
  { charges := [⟨1, 1, 5, ChargeKind.rent, 100, ⟨2026, 1, 1⟩, 0⟩,
                ⟨2, 1, 3, ChargeKind.rent, 100, ⟨2026, 1, 1⟩, 1⟩],
    payments := [], allocations := [], leases := [],
    nextChargeId := 3, nextAllocationId := 1, clock := 2 }

/-- Witness store: payment 1 ($200) fully allocated across two charges. -/
def stC10w : Store :=
  { charges := [⟨1, 1, 1, ChargeKind.rent, 120, ⟨2026, 2, 1⟩, 0⟩,
                ⟨2, 1, 1, ChargeKind.rent, 80, ⟨2026, 3, 1⟩, 1⟩],
    payments := [⟨1, 1, 1, 200⟩],
    allocations := [⟨1, 1, 1, 1, 120⟩, ⟨2, 1, 1, 2, 80⟩], leases := [],
    nextChargeId := 3, nextAllocationId := 3, clock := 2 }

/-- The Charge row the Step 6 create of `generate_monthly_rent_charge`
builds for a lease, rent amount and due date. -/
def genCharge (s : Store) (l : Lease) (rent : Int) (dd : Date) : Charge :=
  ⟨s.nextChargeId, l.organization_id, l.id, ChargeKind.rent, rent, dd, s.clock⟩

/-- The store update a successful charge creation performs: append the row
and advance the id counter and clock. -/
def appendCharge (s : Store) (c : Charge) : Store :=
  { s with charges := s.charges ++ [c], nextChargeId := s.nextChargeId + 1,
           clock := s.clock + 1 }

lemma charge_allocated_total_congr {s s' : Store}
    (h : s'.allocations = s.allocations) (cid : Nat) :
    charge_allocated_total s' cid = charge_allocated_total s cid := by
  unfold charge_allocated_total
  rw [h]

lemma payment_allocated_total_congr {s s' : Store}
    (h : s'.allocations = s.allocations) (pid : Nat) :
    payment_allocated_total s' pid = payment_allocated_total s pid := by
  unfold payment_allocated_total
  rw [h]

lemma charge_allocated_total_snoc {s s' : Store} {a : Allocation}
    (h : s'.allocations = s.allocations ++ [a]) (cid : Nat) :
    charge_allocated_total s' cid
      = charge_allocated_total s cid + (if a.charge_id = cid then a.amount else 0) := by
  unfold charge_allocated_total
  rw [h, List.filter_append, List.map_append, List.sum_append]
  by_cases hc : a.charge_id = cid
  · simp [List.filter, hc]
  · have hb : (a.charge_id == cid) = false := by simpa using hc
    simp [List.filter, hb, hc]

lemma payment_allocated_total_snoc {s s' : Store} {a : Allocation}
    (h : s'.allocations = s.allocations ++ [a]) (pid : Nat) :
    payment_allocated_total s' pid
      = payment_allocated_total s pid + (if a.payment_id = pid then a.amount else 0) := by
  unfold payment_allocated_total
  rw [h, List.filter_append, List.map_append, List.sum_append]
  by_cases hp : a.payment_id = pid
  · simp [List.filter, hp]
  · have hb : (a.payment_id == pid) = false := by simpa using hp
    simp [List.filter, hb, hp]

lemma findChargeById_mem {cs : List Charge} {cid : Nat} {c : Charge}
    (h : findChargeById cs cid = some c) : c ∈ cs ∧ c.id = cid := by
  unfold findChargeById at h
  have hmem : c ∈ cs.filter (fun c => c.id == cid) :=
    List.mem_of_mem_getLast? h
  rw [List.mem_filter] at hmem
  exact ⟨hmem.1, by simpa using hmem.2⟩

lemma findPayment_mem {s : Store} {pid : Nat} {p : Payment}
    (h : findPayment s pid = some p) : p ∈ s.payments ∧ p.id = pid := by
  unfold findPayment at h
  refine ⟨List.mem_of_find?_eq_some h, ?_⟩
  have := List.find?_some h
  simpa using this

lemma findLease_mem {s : Store} {lid : Nat} {l : Lease}
    (h : findLease s lid = some l) : l ∈ s.leases ∧ l.id = lid := by
  unfold findLease at h
  refine ⟨List.mem_of_find?_eq_some h, ?_⟩
  have := List.find?_some h
  simpa using this

lemma charge_allocated_total_eq_zero_of_fresh {s : Store} {n : Nat}
    (h : ∀ a ∈ s.allocations, a.charge_id < n) :
    charge_allocated_total s n = 0 := by
  unfold charge_allocated_total
  have : s.allocations.filter (fun a => a.charge_id == n) = [] := by
    rw [List.filter_eq_nil_iff]
    intro a ha
    have := h a ha
    simp
    omega
  rw [this]
  simp

lemma autoAllocLoop_ok (p : Payment) :
    ∀ (cs : List Charge) (s : Store) (rem now : Int) (ids : List Nat),
    (∀ c ∈ cs, c ∈ s.charges ∧ c.organization_id = p.organization_id ∧ c.lease_id = p.lease_id) →
    (s.charges.map (fun c => c.id)).Nodup →
    (∀ c ∈ s.charges, charge_allocated_total s c.id ≤ c.amount) →
    ∃ s' rem' now' ids',
      autoAllocLoop p cs s rem now ids = .ok (s', rem', now', ids') ∧
      s'.charges = s.charges ∧ s'.payments = s.payments ∧ s'.leases = s.leases ∧
      (∀ c ∈ s'.charges, charge_allocated_total s' c.id ≤ c.amount) ∧
      payment_allocated_total s' p.id + rem' = payment_allocated_total s p.id + rem ∧
      (∀ qid, qid ≠ p.id → payment_allocated_total s' qid = payment_allocated_total s qid) ∧
      (0 ≤ rem → 0 ≤ rem')
  | [], s, rem, now, ids, _, _, hinv =>
    ⟨s, rem, now, ids, rfl, rfl, rfl, rfl, hinv, rfl, fun _ _ => rfl, fun h => h⟩
  | c :: cs, s, rem, now, ids, hcs, hnodup, hinv => by
    have hc := hcs c (List.mem_cons_self c cs)
    have horg : ¬ (p.organization_id ≠ c.organization_id) := fun h => h hc.2.1.symm
    have hlea : ¬ (p.lease_id ≠ c.lease_id) := fun h => h hc.2.2.symm
    by_cases hr : rem ≤ 0
    · exact ⟨s, rem, now, ids, by simp [autoAllocLoop, hr], rfl, rfl, rfl, hinv, rfl,
        fun _ _ => rfl, fun h => h⟩
    · by_cases hcr : remaining_charge_balance s c ≤ 0
      · have hrec := autoAllocLoop_ok p cs s rem now ids
          (fun d hd => hcs d (List.mem_cons_of_mem c hd)) hnodup hinv
        obtain ⟨s', rem', now', ids', heq, h1, h2, h3, h4, h5, h6, h7⟩ := hrec
        refine ⟨s', rem', now', ids', ?_, h1, h2, h3, h4, h5, h6, h7⟩
        simp only [autoAllocLoop, if_neg hr, if_neg horg, if_neg hlea, if_pos hcr]
        exact heq
      · -- allocate min(rem, chargeRemaining) against c, then recurse
        set amt := min rem (remaining_charge_balance s c) with hamt
        set alloc : Allocation := ⟨s.nextAllocationId, p.organization_id, p.id, c.id, amt⟩
          with halloc
        set s1 : Store :=
          { s with allocations := s.allocations ++ [alloc],
                   nextAllocationId := s.nextAllocationId + 1 } with hs1
        have hall : s1.allocations = s.allocations ++ [alloc] := rfl
        have hchg : s1.charges = s.charges := rfl
        have hAm : alloc.amount = amt := rfl
        have hAc : alloc.charge_id = c.id := rfl
        have hAp : alloc.payment_id = p.id := rfl
        have hinv1 : ∀ d ∈ s1.charges, charge_allocated_total s1 d.id ≤ d.amount := by
          intro d hd
          rw [hchg] at hd
          rw [charge_allocated_total_snoc hall]
          by_cases hid : alloc.charge_id = d.id
          · have hcd : c = d :=
              List.inj_on_of_nodup_map hnodup hc.1 hd (hAc ▸ hid)
            have hpos : 0 < remaining_charge_balance s c := by omega
            have hval : remaining_charge_balance s c
                = c.amount - charge_allocated_total s c.id := by
              unfold remaining_charge_balance at hpos ⊢
              by_cases h : c.amount - charge_allocated_total s c.id > 0
              · simp [h]
              · simp [h] at hpos
            have hle : amt ≤ remaining_charge_balance s c := min_le_right _ _
            rw [if_pos hid, ← hcd, hAm]
            omega
          · rw [if_neg hid, add_zero]
            exact hinv d hd
        have hrec := autoAllocLoop_ok p cs s1 (rem - amt) (now + amt) (ids ++ [alloc.id])
          (fun d hd => by
            have := hcs d (List.mem_cons_of_mem c hd)
            exact ⟨by rw [hchg]; exact this.1, this.2.1, this.2.2⟩)
          (by rw [hchg]; exact hnodup) hinv1
        obtain ⟨s', rem', now', ids', heq, h1, h2, h3, h4, h5, h6, h7⟩ := hrec
        refine ⟨s', rem', now', ids', ?_, by rw [h1, hchg], by rw [h2], by rw [h3],
          h4, ?_, ?_, ?_⟩
        · simp only [autoAllocLoop, if_neg hr, if_neg horg, if_neg hlea, if_neg hcr]
          exact heq
        · have hp1 : payment_allocated_total s1 p.id = payment_allocated_total s p.id + amt := by
            rw [payment_allocated_total_snoc hall, if_pos hAp, hAm]
          omega
        · intro qid hq
          have hq1 : payment_allocated_total s1 qid = payment_allocated_total s qid := by
            rw [payment_allocated_total_snoc hall,
              if_neg (fun h : alloc.payment_id = qid => hq ((hAp ▸ h).symm)), add_zero]
          rw [h6 qid hq, hq1]
        · intro h0
          have hminle : amt ≤ rem := min_le_left _ _
          have : 0 ≤ rem - amt := by omega
          exact h7 this

lemma manualAllocLoop_ok (p : Payment) :
    ∀ (reqs : List AllocationRequest) (s : Store) (rem now : Int) (ids : List Nat)
      {s' : Store} {rem' now' : Int} {ids' : List Nat},
    manualAllocLoop p reqs s rem now ids = .ok (s', rem', now', ids') →
    (s.charges.map (fun c => c.id)).Nodup →
    (∀ c ∈ s.charges, charge_allocated_total s c.id ≤ c.amount) →
    s'.charges = s.charges ∧ s'.payments = s.payments ∧ s'.leases = s.leases ∧
    (∀ c ∈ s'.charges, charge_allocated_total s' c.id ≤ c.amount) ∧
    payment_allocated_total s' p.id + rem' = payment_allocated_total s p.id + rem ∧
    (∀ qid, qid ≠ p.id → payment_allocated_total s' qid = payment_allocated_total s qid) ∧
    (0 ≤ rem → 0 ≤ rem')
  | [], s, rem, now, ids, s', rem', now', ids', h, _, hinv => by
    simp only [manualAllocLoop, Except.ok.injEq, Prod.mk.injEq] at h
    obtain ⟨rfl, rfl, rfl, rfl⟩ := h
    exact ⟨rfl, rfl, rfl, hinv, rfl, fun _ _ => rfl, fun h => h⟩
  | r :: rs, s, rem, now, ids, s', rem', now', ids', h, hnodup, hinv => by
    simp only [manualAllocLoop] at h
    cases hf : findChargeById s.charges r.charge_id with
    | none => rw [hf] at h; simp at h
    | some c =>
      rw [hf] at h
      simp only [] at h
      by_cases ho : p.organization_id ≠ c.organization_id
      · rw [if_pos ho] at h; simp at h
      · rw [if_neg ho] at h
        by_cases hl : p.lease_id ≠ c.lease_id
        · rw [if_pos hl] at h; simp at h
        · rw [if_neg hl] at h
          by_cases hb : r.amount > rem
          · rw [if_pos hb] at h; simp at h
          · rw [if_neg hb] at h
            by_cases hcb : r.amount > remaining_charge_balance s c
            · rw [if_pos hcb] at h; simp at h
            · rw [if_neg hcb] at h
              have hcmem := findChargeById_mem hf
              set alloc : Allocation :=
                ⟨s.nextAllocationId, p.organization_id, p.id, c.id, r.amount⟩ with halloc
              set s1 : Store :=
                { s with allocations := s.allocations ++ [alloc],
                         nextAllocationId := s.nextAllocationId + 1 } with hs1
              have hall : s1.allocations = s.allocations ++ [alloc] := rfl
              have hchg : s1.charges = s.charges := rfl
              have hAm : alloc.amount = r.amount := rfl
              have hAc : alloc.charge_id = c.id := rfl
              have hAp : alloc.payment_id = p.id := rfl
              have hinv1 : ∀ d ∈ s1.charges, charge_allocated_total s1 d.id ≤ d.amount := by
                intro d hd
                rw [hchg] at hd
                rw [charge_allocated_total_snoc hall]
                by_cases hid : alloc.charge_id = d.id
                · have hcd : c = d :=
                    List.inj_on_of_nodup_map hnodup hcmem.1 hd (hAc ▸ hid)
                  have hle : r.amount ≤ remaining_charge_balance s c := by omega
                  have hinvc := hinv c hcmem.1
                  rw [if_pos hid, ← hcd, hAm]
                  unfold remaining_charge_balance at hle
                  by_cases hrp : c.amount - charge_allocated_total s c.id > 0
                  · rw [if_pos hrp] at hle
                    omega
                  · rw [if_neg hrp] at hle
                    omega
                · rw [if_neg hid, add_zero]
                  exact hinv d hd
              have hrec := manualAllocLoop_ok p rs s1 (rem - r.amount) (now + r.amount)
                (ids ++ [alloc.id]) h (by rw [hchg]; exact hnodup) hinv1
              obtain ⟨h1, h2, h3, h4, h5, h6, h7⟩ := hrec
              refine ⟨by rw [h1, hchg], by rw [h2], by rw [h3], h4, ?_, ?_, ?_⟩
              · have hp1 : payment_allocated_total s1 p.id
                    = payment_allocated_total s p.id + r.amount := by
                  rw [payment_allocated_total_snoc hall, if_pos hAp, hAm]
                omega
              · intro qid hq
                have hq1 : payment_allocated_total s1 qid = payment_allocated_total s qid := by
                  rw [payment_allocated_total_snoc hall,
                    if_neg (fun hx : alloc.payment_id = qid => hq ((hAp ▸ hx).symm)), add_zero]
                rw [h6 qid hq, hq1]
              · intro h0
                have : 0 ≤ rem - r.amount := by omega
                exact h7 this

lemma gen_create_preserves (s : Store) (oid lid2 : Nat) (rent : Int) (dd : Date)
    (hrpos : ¬ rent ≤ 0) (hinv : LedgerInv s) (hwf : StoreWf s) :
    LedgerInv ({ s with
      charges := s.charges ++ [⟨s.nextChargeId, oid, lid2, ChargeKind.rent, rent, dd, s.clock⟩],
      nextChargeId := s.nextChargeId + 1,
      clock := s.clock + 1 } : Store) ∧
    StoreWf ({ s with
      charges := s.charges ++ [⟨s.nextChargeId, oid, lid2, ChargeKind.rent, rent, dd, s.clock⟩],
      nextChargeId := s.nextChargeId + 1,
      clock := s.clock + 1 } : Store) := by
  constructor
  · constructor
    · intro c hc
      have hall : ({ s with
          charges := s.charges ++ [⟨s.nextChargeId, oid, lid2, ChargeKind.rent, rent, dd, s.clock⟩],
          nextChargeId := s.nextChargeId + 1,
          clock := s.clock + 1 } : Store).allocations = s.allocations := rfl
      rw [charge_allocated_total_congr hall]
      rcases List.mem_append.1 hc with hc | hc
      · exact hinv.1 c hc
      · have hcc : c = ⟨s.nextChargeId, oid, lid2, ChargeKind.rent, rent, dd, s.clock⟩ := by
          simpa using hc
        rw [hcc]
        have hz : charge_allocated_total s s.nextChargeId = 0 :=
          charge_allocated_total_eq_zero_of_fresh hwf.2.1
        simp only [hz]
        omega
    · intro q hq
      exact hinv.2 q hq
  · refine ⟨?_, ?_, ?_, hwf.2.2.2⟩
    · intro c hc
      show c.id < s.nextChargeId + 1
      rcases List.mem_append.1 hc with hc | hc
      · have := hwf.1 c hc
        omega
      · have hcc : c.id = s.nextChargeId := by
          have : c = ⟨s.nextChargeId, oid, lid2, ChargeKind.rent, rent, dd, s.clock⟩ := by
            simpa using hc
          rw [this]
        omega
    · intro a ha
      show a.charge_id < s.nextChargeId + 1
      have := hwf.2.1 a ha
      omega
    · rw [List.map_append, List.nodup_append]
      refine ⟨hwf.2.2.1, by simp, ?_⟩
      intro x hx hy
      have hlt : x < s.nextChargeId := by
        rw [List.mem_map] at hx
        obtain ⟨c, hc, rfl⟩ := hx
        exact hwf.1 c hc
      have hxe : x = s.nextChargeId := by simpa using hy
      omega

lemma generate_preserves (s : Store) (lid : Nat) (y : Int) (m : Nat)
    (hinv : LedgerInv s) (hwf : StoreWf s) :
    LedgerInv (generate_monthly_rent_charge s lid y m).1 ∧
    StoreWf (generate_monthly_rent_charge s lid y m).1 := by
  unfold generate_monthly_rent_charge
  dsimp only
  repeat' first
    | exact ⟨hinv, hwf⟩
    | split
  all_goals
    refine gen_create_preserves s _ _ _ _ ?_ hinv hwf
    assumption

lemma rentPostingLoop_preserves (y : Int) (m : Nat) :
    ∀ (ls : List Lease) (s : Store) (cc ce : Nat) (ids : List Nat)
      (errs : List RentPostingError),
    LedgerInv s → StoreWf s →
    LedgerInv (rentPostingLoop y m ls s cc ce ids errs).1 ∧
    StoreWf (rentPostingLoop y m ls s cc ce ids errs).1
  | [], s, cc, ce, ids, errs, hinv, hwf => ⟨hinv, hwf⟩
  | l :: ls, s, cc, ce, ids, errs, hinv, hwf => by
    have hstep := generate_preserves s l.id y m hinv hwf
    cases hg : generate_monthly_rent_charge s l.id y m with
    | mk s1 res =>
      rw [hg] at hstep
      cases res with
      | ok r =>
        by_cases hcr : r.created
        · simpa [rentPostingLoop, hg, hcr] using
            rentPostingLoop_preserves y m ls s1 (cc + 1) ce (ids ++ [r.charge_id]) errs
              hstep.1 hstep.2
        · simpa [rentPostingLoop, hg, hcr] using
            rentPostingLoop_preserves y m ls s1 cc (ce + 1) ids errs hstep.1 hstep.2
      | error e =>
        simpa [rentPostingLoop, hg] using
          rentPostingLoop_preserves y m ls s1 cc ce ids (errs ++ [⟨l.id, e⟩])
            hstep.1 hstep.2

lemma autoSortedCharges_mem {s : Store} {p : Payment} {c : Charge}
    (hc : c ∈ autoSortedCharges s p) :
    c ∈ s.charges ∧ c.organization_id = p.organization_id ∧ c.lease_id = p.lease_id := by
  unfold autoSortedCharges at hc
  have hperm := List.perm_insertionSort chargeFifoLE
    (s.charges.filter (fun c =>
      c.organization_id == p.organization_id && c.lease_id == p.lease_id))
  have hmem := hperm.mem_iff.mp hc
  rw [List.mem_filter] at hmem
  refine ⟨hmem.1, ?_, ?_⟩
  · have := hmem.2
    simp only [Bool.and_eq_true, beq_iff_eq] at this
    exact this.1
  · have := hmem.2
    simp only [Bool.and_eq_true, beq_iff_eq] at this
    exact this.2

lemma auto_preserves (s : Store) (pid : Nat)
    (hinv : LedgerInv s) (hwf : StoreWf s) :
    LedgerInv (allocate_payment_auto s pid).1 := by
  unfold allocate_payment_auto
  cases hp : findPayment s pid with
  | none => exact hinv
  | some p =>
    dsimp only
    by_cases hr : p.amount - payment_allocated_total s p.id ≤ 0
    · rw [if_pos hr]
      exact hinv
    · rw [if_neg hr]
      obtain ⟨s', rem', now', ids', heq, h1, h2, h3, h4, h5, h6, h7⟩ :=
        autoAllocLoop_ok p (autoSortedCharges s p) s
          (p.amount - payment_allocated_total s p.id) 0 []
          (fun c hc => autoSortedCharges_mem hc) hwf.2.2.1 hinv.1
      rw [heq]
      dsimp only
      refine ⟨h4, ?_⟩
      intro q hq
      rw [h2] at hq
      by_cases hqid : q.id = p.id
      · have hpmem := findPayment_mem hp
        have hqp : q = p := List.inj_on_of_nodup_map hwf.2.2.2 hq hpmem.1 hqid
        rw [hqp]
        have hge : 0 ≤ rem' := h7 (by omega)
        omega
      · rw [h6 q.id hqid]
        exact hinv.2 q hq

lemma manual_preserves (s : Store) (pid : Nat) (reqs : List AllocationRequest)
    (hinv : LedgerInv s) (hwf : StoreWf s) :
    LedgerInv (allocate_payment_manual s pid reqs).1 := by
  unfold allocate_payment_manual
  by_cases he : reqs.isEmpty
  · rw [if_pos he]
    exact hinv
  · rw [if_neg he]
    by_cases ha : reqs.any (fun r => decide (r.amount ≤ 0))
    · rw [if_pos ha]
      exact hinv
    · rw [if_neg ha]
      cases hp : findPayment s pid with
      | none => exact hinv
      | some p =>
        dsimp only
        by_cases hr : p.amount - payment_allocated_total s p.id ≤ 0
        · rw [if_pos hr]
          exact hinv
        · rw [if_neg hr]
          cases hl : manualAllocLoop p reqs s (p.amount - payment_allocated_total s p.id) 0 [] with
          | error e => exact hinv
          | ok t =>
            obtain ⟨s', rem', now', ids'⟩ := t
            obtain ⟨h1, h2, h3, h4, h5, h6, h7⟩ :=
              manualAllocLoop_ok p reqs s (p.amount - payment_allocated_total s p.id) 0 []
                hl hwf.2.2.1 hinv.1
            dsimp only
            refine ⟨h4, ?_⟩
            intro q hq
            rw [h2] at hq
            by_cases hqid : q.id = p.id
            · have hpmem := findPayment_mem hp
              have hqp : q = p := List.inj_on_of_nodup_map hwf.2.2.2 hq hpmem.1 hqid
              rw [hqp]
              have hge : 0 ≤ rem' := h7 (by omega)
              omega
            · rw [h6 q.id hqid]
              exact hinv.2 q hq

/-- **C1.**  After every operation — auto allocation, manual allocation,
monthly rent charge generation, and the bulk rent posting run — every
charge's allocation sum stays at most the charge amount and every
payment's allocation sum stays at most the payment amount, provided the
store satisfied that invariant (and primary-key well-formedness) before
the operation. -/
theorem claim_c1_ledger_invariant (s : Store)
    (hwf : StoreWf s) (hinv : LedgerInv s) :
    (∀ pid, LedgerInv (allocate_payment_auto s pid).1) ∧
    (∀ pid reqs, LedgerInv (allocate_payment_manual s pid reqs).1) ∧
    (∀ lid y m, LedgerInv (generate_monthly_rent_charge s lid y m).1) ∧
    (∀ orgId asOf, LedgerInv (run_current_month_for_org s orgId asOf).1) := by
  refine ⟨fun pid => auto_preserves s pid hinv hwf,
    fun pid reqs => manual_preserves s pid reqs hinv hwf,
    fun lid y m => (generate_preserves s lid y m hinv hwf).1,
    fun orgId asOf => ?_⟩
  unfold run_current_month_for_org
  dsimp only
  cases hl : rentPostingLoop asOf.year asOf.month
      (s.leases.filter (fun l => l.organization_id == orgId)) s 0 0 [] [] with
  | mk s' rest =>
    obtain ⟨created, existing, ids, errs⟩ := rest
    dsimp only
    have := rentPostingLoop_preserves asOf.year asOf.month
      (s.leases.filter (fun l => l.organization_id == orgId)) s 0 0 [] [] hinv hwf
    rw [hl] at this
    exact this.1

/-- Witness for C1 at a concrete store. -/
theorem claim_c1_witness :
    StoreWf stC1w ∧ LedgerInv stC1w ∧
    LedgerInv (allocate_payment_auto stC1w 1).1 ∧
    LedgerInv (allocate_payment_manual stC1w 1 [⟨1, 10⟩]).1 ∧
    LedgerInv (generate_monthly_rent_charge stC1w 1 2026 3).1 ∧
    LedgerInv (run_current_month_for_org stC1w 1 ⟨2026, 3, 15⟩).1 := by
  have h := claim_c1_ledger_invariant stC1w (by decide) (by decide)
  exact ⟨by decide, by decide, h.1 1, h.2.1 1 [⟨1, 10⟩], h.2.2.1 1 2026 3,
    h.2.2.2 1 ⟨2026, 3, 15⟩⟩

/-- **C4 (amended).**  `allocate_payment_auto` on a payment whose unapplied
remainder is ≤ 0 creates no allocation (the store is returned unchanged),
reports an empty allocation-id list and zero unapplied amount, and its
`allocated_total` field carries the payment's cumulative already-allocated
sum — not the zero amount allocated by this call. -/
theorem claim_c4_auto_noop (s : Store) (pid : Nat) (p : Payment)
    (hp : findPayment s pid = some p)
    (hfull : p.amount - payment_allocated_total s p.id ≤ 0) :
    allocate_payment_auto s pid
      = (s, .ok ⟨p.id, payment_allocated_total s p.id, 0, []⟩) := by
  unfold allocate_payment_auto
  rw [hp]
  dsimp only
  rw [if_pos hfull]

/-- **C4 counterexample.**  On a fully-allocated $100 payment the call
creates nothing, yet the returned `allocated_total` field is 100 — the
cumulative total — not the 0 allocated by this call, refuting the reading
that the field is "the total allocated by this call". -/
theorem claim_c4_counterexample :
    allocate_payment_auto stC4x 1 = (stC4x, .ok ⟨1, 100, 0, []⟩) ∧
    payment_allocated_total stC4x 1 = 100 ∧ (100 : Int) ≠ 0 := by
  decide

/-- Witness for C4: the amended theorem applied at the concrete store. -/
theorem claim_c4_witness :
    allocate_payment_auto stC4x 1 = (stC4x, .ok ⟨1, 100, 0, []⟩) := by
  have h := claim_c4_auto_noop stC4x 1 ⟨1, 1, 1, 100⟩ (by decide) (by decide)
  exact h.trans (by decide)

/-- **C10.**  `allocate_payment_manual` on a payment whose unapplied
remainder is ≤ 0, for any non-empty list of positive-amount requests,
returns the no-op result (cumulative allocated total, zero unapplied,
empty id list) with the store unchanged, and raises no error. -/
theorem claim_c10_manual_noop (s : Store) (pid : Nat)
    (reqs : List AllocationRequest) (p : Payment)
    (hne : reqs ≠ [])
    (hpos : ∀ r ∈ reqs, 0 < r.amount)
    (hp : findPayment s pid = some p)
    (hfull : p.amount - payment_allocated_total s p.id ≤ 0) :
    allocate_payment_manual s pid reqs
      = (s, .ok ⟨p.id, payment_allocated_total s p.id, 0, []⟩) := by
  unfold allocate_payment_manual
  rw [if_neg (by simpa [List.isEmpty_iff] using hne)]
  rw [if_neg (by
    simp only [List.any_eq_true, decide_eq_true_eq, not_exists]
    intro r
    rw [not_and]
    intro hr hle
    have := hpos r hr
    omega)]
  rw [hp]
  dsimp only
  rw [if_pos hfull]

/-- Witness for C10 at a concrete fully-allocated payment. -/
theorem claim_c10_witness :
    allocate_payment_manual stC10w 1 [⟨1, 40⟩, ⟨2, 10⟩] = (stC10w, .ok ⟨1, 200, 0, []⟩) := by
  have h := claim_c10_manual_noop stC10w 1 [⟨1, 40⟩, ⟨2, 10⟩] ⟨1, 1, 1, 200⟩
    (by decide) (by decide) (by decide) (by decide)
  exact h.trans (by decide)

/-- **C5.**  `allocate_payment_manual` is all-or-nothing: whenever the call
returns an error — unknown charge, boundary mismatch, charge
over-allocation, insufficient payment balance, or a validation failure —
the committed store is exactly the input store, so no allocation created
inside the failed transaction survives. -/
theorem claim_c5_manual_rollback (s : Store) (pid : Nat)
    (reqs : List AllocationRequest) (e : BillingError)
    (h : (allocate_payment_manual s pid reqs).2 = .error e) :
    (allocate_payment_manual s pid reqs).1 = s := by
  unfold allocate_payment_manual at h ⊢
  by_cases he : reqs.isEmpty
  · rw [if_pos he]
  · rw [if_neg he] at h ⊢
    by_cases ha : reqs.any fun r => decide (r.amount ≤ 0)
    · rw [if_pos ha]
    · rw [if_neg ha] at h ⊢
      cases hp : findPayment s pid with
      | none => rfl
      | some p =>
        rw [hp] at h
        dsimp only at h ⊢
        by_cases hr : p.amount - payment_allocated_total s p.id ≤ 0
        · rw [if_pos hr]
        · rw [if_neg hr] at h ⊢
          cases hl : manualAllocLoop p reqs s (p.amount - payment_allocated_total s p.id) 0 [] with
          | error e' => rfl
          | ok t =>
            obtain ⟨s', rem', now', ids'⟩ := t
            rw [hl] at h
            simp at h

/-- Witness for C5: a request list whose first entry succeeds inside the
loop and whose second names a nonexistent charge; the call errors and the
committed store is untouched. -/
theorem claim_c5_witness :
    (allocate_payment_manual stC5w 1 [⟨1, 30⟩, ⟨99, 10⟩]).2
        = .error (.unknownCharge 99) ∧
    (allocate_payment_manual stC5w 1 [⟨1, 30⟩, ⟨99, 10⟩]).1 = stC5w := by
  refine ⟨by decide, ?_⟩
  exact claim_c5_manual_rollback stC5w 1 [⟨1, 30⟩, ⟨99, 10⟩] (.unknownCharge 99) (by decide)

lemma chargeFifoLE_total (a b : Charge) : chargeFifoLE a b ∨ chargeFifoLE b a := by
  obtain ⟨ida, orga, la, ka, ama, ⟨ya, ma, da⟩, ca⟩ := a
  obtain ⟨idb, orgb, lb2, kb, amb, ⟨yb, mb, db⟩, cb⟩ := b
  simp only [chargeFifoLE, Date.lt, Date.mk.injEq]
  omega

lemma chargeFifoLE_trans (a b c : Charge)
    (h1 : chargeFifoLE a b) (h2 : chargeFifoLE b c) : chargeFifoLE a c := by
  obtain ⟨ida, orga, la, ka, ama, ⟨ya, ma, da⟩, ca⟩ := a
  obtain ⟨idb, orgb, lb2, kb, amb, ⟨yb, mb, db⟩, cb⟩ := b
  obtain ⟨idc, orgc, lc, kc, amc, ⟨yc, mc, dc⟩, cc⟩ := c
  simp only [chargeFifoLE, Date.lt, Date.mk.injEq] at h1 h2 ⊢
  omega

lemma autoAllocLoop_walk (p : Payment) :
    ∀ (cs : List Charge) (s0 s : Store) (rem now : Int) (ids : List Nat),
    (∀ c ∈ cs, c.organization_id = p.organization_id ∧ c.lease_id = p.lease_id) →
    (∀ c ∈ cs, charge_allocated_total s c.id = charge_allocated_total s0 c.id) →
    (cs.map (fun c => c.id)).Nodup →
    ∃ s' rem' now' ids' tail,
      autoAllocLoop p cs s rem now ids = .ok (s', rem', now', ids') ∧
      s'.allocations = s.allocations ++ tail ∧
      tail.map (fun a => (a.charge_id, a.amount)) = fifoSpecWalk s0 rem cs
  | [], s0, s, rem, now, ids, _, _, _ =>
    ⟨s, rem, now, ids, [], rfl, by simp, rfl⟩
  | c :: cs, s0, s, rem, now, ids, hb, hagree, hnd => by
    have hc := hb c (List.mem_cons_self c cs)
    have horg : ¬ (p.organization_id ≠ c.organization_id) := fun h => h hc.1.symm
    have hlea : ¬ (p.lease_id ≠ c.lease_id) := fun h => h hc.2.symm
    have hbal : remaining_charge_balance s c = remaining_charge_balance s0 c := by
      unfold remaining_charge_balance
      rw [hagree c (List.mem_cons_self c cs)]
    by_cases hr : rem ≤ 0
    · refine ⟨s, rem, now, ids, [], ?_, by simp, ?_⟩
      · simp [autoAllocLoop, hr]
      · simp [fifoSpecWalk, hr]
    · by_cases hcr : remaining_charge_balance s c ≤ 0
      · obtain ⟨s', rem', now', ids', tail, heq, hal, hmap⟩ :=
          autoAllocLoop_walk p cs s0 s rem now ids
            (fun d hd => hb d (List.mem_cons_of_mem c hd))
            (fun d hd => hagree d (List.mem_cons_of_mem c hd))
            ((List.nodup_cons.1 hnd).2)
        refine ⟨s', rem', now', ids', tail, ?_, hal, ?_⟩
        · simp only [autoAllocLoop, if_neg hr, if_neg horg, if_neg hlea, if_pos hcr]
          exact heq
        · rw [hmap]
          have hcr0 : remaining_charge_balance s0 c ≤ 0 := hbal ▸ hcr
          simp only [fifoSpecWalk, if_neg hr, if_pos hcr0]
      · set amt := min rem (remaining_charge_balance s c) with hamt
        set alloc : Allocation := ⟨s.nextAllocationId, p.organization_id, p.id, c.id, amt⟩
          with halloc
        set s1 : Store :=
          { s with allocations := s.allocations ++ [alloc],
                   nextAllocationId := s.nextAllocationId + 1 } with hs1
        have hall : s1.allocations = s.allocations ++ [alloc] := rfl
        have hAc : alloc.charge_id = c.id := rfl
        have hAm : alloc.amount = amt := rfl
        have hcid : c.id ∉ cs.map (fun c => c.id) := (List.nodup_cons.1 hnd).1
        obtain ⟨s', rem', now', ids', tail, heq, hal, hmap⟩ :=
          autoAllocLoop_walk p cs s0 s1 (rem - amt) (now + amt) (ids ++ [alloc.id])
            (fun d hd => hb d (List.mem_cons_of_mem c hd))
            (fun d hd => by
              rw [charge_allocated_total_snoc hall,
                if_neg (fun hx : alloc.charge_id = d.id => by
                  rw [hAc] at hx
                  exact hcid (hx ▸ List.mem_map_of_mem (fun c => c.id) hd)),
                add_zero]
              exact hagree d (List.mem_cons_of_mem c hd))
            ((List.nodup_cons.1 hnd).2)
        refine ⟨s', rem', now', ids', alloc :: tail, ?_, ?_, ?_⟩
        · simp only [autoAllocLoop, if_neg hr, if_neg horg, if_neg hlea, if_neg hcr]
          exact heq
        · rw [hal, hall, List.append_assoc, List.singleton_append]
        · have hcr0 : ¬ remaining_charge_balance s0 c ≤ 0 := fun h => hcr (hbal ▸ h)
          simp only [fifoSpecWalk, if_neg hr, if_neg hcr0, List.map_cons, hmap]
          rw [hamt, hbal]

/-- **C2.**  `allocate_payment_auto` on a payment with positive unapplied
remainder visits the payment's lease's charges in (due date, creation
time, id) ascending order, and the allocations it appends are exactly the
spec's FIFO walk over that ordered list: settled charges (remaining ≤ 0)
are skipped and each open charge receives `min(remainingPayment,
chargeRemaining)` until the remainder hits 0 or charges run out. -/
theorem claim_c2_auto_fifo (s : Store) (pid : Nat) (p : Payment)
    (hp : findPayment s pid = some p)
    (hnodup : (s.charges.map (fun c => c.id)).Nodup)
    (hrem : 0 < p.amount - payment_allocated_total s p.id) :
    List.Sorted chargeFifoLE (autoSortedCharges s p) ∧
    ∃ tail,
      (allocate_payment_auto s pid).1.allocations = s.allocations ++ tail ∧
      tail.map (fun a => (a.charge_id, a.amount))
        = fifoSpecWalk s (p.amount - payment_allocated_total s p.id) (autoSortedCharges s p) := by
  constructor
  · exact @List.sorted_insertionSort _ chargeFifoLE _ ⟨chargeFifoLE_total⟩
      ⟨chargeFifoLE_trans⟩ _
  · have hndsorted : ((autoSortedCharges s p).map (fun c => c.id)).Nodup := by
      unfold autoSortedCharges
      have hperm := List.perm_insertionSort chargeFifoLE
        (s.charges.filter (fun c =>
          c.organization_id == p.organization_id && c.lease_id == p.lease_id))
      rw [(hperm.map (fun c => c.id)).nodup_iff]
      exact ((List.filter_sublist s.charges).map (fun c => c.id)).nodup hnodup
    obtain ⟨s', rem', now', ids', tail, heq, hal, hmap⟩ :=
      autoAllocLoop_walk p (autoSortedCharges s p) s s
        (p.amount - payment_allocated_total s p.id) 0 []
        (fun c hc => (autoSortedCharges_mem hc).2)
        (fun c _ => rfl) hndsorted
    refine ⟨tail, ?_, hmap⟩
    unfold allocate_payment_auto
    rw [hp]
    dsimp only
    rw [if_neg (by omega), heq]
    dsimp only
    exact hal

/-- Witness for C2: the spec's own example — charges of $1200 due
2026-02-01 and 2026-03-01 and a $1500 payment give $1200 to February,
$300 to March, and $0 unapplied. -/
theorem claim_c2_witness :
    List.Sorted chargeFifoLE (autoSortedCharges stC2w ⟨1, 1, 1, 1500⟩) ∧
    ((allocate_payment_auto stC2w 1).1.allocations.drop stC2w.allocations.length).map
        (fun a => (a.charge_id, a.amount)) = [(1, 1200), (2, 300)] ∧
    (allocate_payment_auto stC2w 1).2 = .ok ⟨1, 1500, 0, [1, 2]⟩ := by
  have h := claim_c2_auto_fifo stC2w 1 ⟨1, 1, 1, 1500⟩ (by decide) (by decide) (by decide)
  exact ⟨h.1, by decide, by decide⟩

lemma manualLoop_insufficient (p : Payment) :
    ∀ (reqs : List AllocationRequest) (s : Store) (rem now : Int) (ids : List Nat),
    0 ≤ rem →
    rem < (reqs.map (fun r => r.amount)).sum →
    (∀ r ∈ reqs, ∃ c, findChargeById s.charges r.charge_id = some c ∧
      c.organization_id = p.organization_id ∧ c.lease_id = p.lease_id ∧
      r.amount ≤ remaining_charge_balance s c) →
    (reqs.map (fun r => r.charge_id)).Nodup →
    manualAllocLoop p reqs s rem now ids = .error .insufficientPaymentBalance
  | [], s, rem, now, ids, h0, hsum, _, _ => by
    simp at hsum
    omega
  | r :: rs, s, rem, now, ids, h0, hsum, hfind, hnd => by
    obtain ⟨c, hfc, horg, hlea, hle⟩ := hfind r (List.mem_cons_self r rs)
    have hcid : c.id = r.charge_id := (findChargeById_mem hfc).2
    simp only [manualAllocLoop, hfc]
    rw [if_neg (fun h => h horg.symm), if_neg (fun h => h hlea.symm)]
    by_cases hb : r.amount > rem
    · rw [if_pos hb]
    · rw [if_neg hb, if_neg (by omega : ¬ r.amount > remaining_charge_balance s c)]
      rw [List.map_cons, List.sum_cons] at hsum
      set alloc : Allocation := ⟨s.nextAllocationId, p.organization_id, p.id, c.id, r.amount⟩
        with halloc
      set s1 : Store :=
        { s with allocations := s.allocations ++ [alloc],
                 nextAllocationId := s.nextAllocationId + 1 } with hs1
      have hall : s1.allocations = s.allocations ++ [alloc] := rfl
      have hAc : alloc.charge_id = c.id := rfl
      have hhead : r.charge_id ∉ rs.map (fun r => r.charge_id) := (List.nodup_cons.1 hnd).1
      apply manualLoop_insufficient p rs s1 (rem - r.amount) (now + r.amount) (ids ++ [alloc.id])
        (by omega) (by omega)
      · intro r' hr'
        obtain ⟨c', hfc', ho', hl', hb'⟩ := hfind r' (List.mem_cons_of_mem r hr')
        refine ⟨c', hfc', ho', hl', ?_⟩
        have hne : alloc.charge_id ≠ c'.id := by
          rw [hAc, hcid, (findChargeById_mem hfc').2]
          intro hx
          exact hhead (hx ▸ List.mem_map_of_mem (fun r => r.charge_id) hr')
        have hsame : remaining_charge_balance s1 c' = remaining_charge_balance s c' := by
          unfold remaining_charge_balance
          rw [charge_allocated_total_snoc hall, if_neg hne, add_zero]
        rw [hsame]
        exact hb'
      · exact (List.nodup_cons.1 hnd).2

/-- **C3 counterexample.**  Payment 1 of $100 is fully allocated: its
unapplied remainder is 0 and the requested sum 50 exceeds it, yet
`allocate_payment_manual` returns a no-op success instead of failing with
InsufficientPaymentBalance. -/
theorem claim_c3_counterexample :
    payment_allocated_total stC3x 1 = 100 ∧
    (([⟨1, 50⟩] : List AllocationRequest).map (fun r => r.amount)).sum = 50 ∧
    allocate_payment_manual stC3x 1 [⟨1, 50⟩] = (stC3x, .ok ⟨1, 100, 0, []⟩) := by
  decide

/-- **C3 (amended).**  When the unapplied remainder is ≤ 0 the call returns
a no-op success rather than failing.  When the remainder is positive and
every request targets a distinct existing charge of the payment's
organization and lease with an amount within that charge's remaining
balance, a request sum exceeding the remainder makes the whole call fail
with InsufficientPaymentBalance and commit nothing. -/
theorem claim_c3_insufficient (s : Store) (pid : Nat)
    (reqs : List AllocationRequest) (p : Payment)
    (hp : findPayment s pid = some p)
    (hpos : ∀ r ∈ reqs, 0 < r.amount)
    (hrem : 0 < p.amount - payment_allocated_total s p.id)
    (hsum : p.amount - payment_allocated_total s p.id
      < (reqs.map (fun r => r.amount)).sum)
    (hfind : ∀ r ∈ reqs, ∃ c, findChargeById s.charges r.charge_id = some c ∧
      c.organization_id = p.organization_id ∧ c.lease_id = p.lease_id ∧
      r.amount ≤ remaining_charge_balance s c)
    (hnd : (reqs.map (fun r => r.charge_id)).Nodup) :
    allocate_payment_manual s pid reqs = (s, .error .insufficientPaymentBalance) := by
  have hne : reqs ≠ [] := by
    intro h
    subst h
    simp at hsum
    omega
  unfold allocate_payment_manual
  rw [if_neg (by simpa [List.isEmpty_iff] using hne)]
  rw [if_neg (by
    simp only [List.any_eq_true, decide_eq_true_eq, not_exists]
    intro r
    rw [not_and]
    intro hr hle
    have := hpos r hr
    omega)]
  rw [hp]
  dsimp only
  rw [if_neg (by omega)]
  rw [manualLoop_insufficient p reqs s _ 0 [] (by omega) hsum hfind hnd]

/-- Witness for C3 (amended): a $100 unallocated payment, two $80 charges,
requests 70 + 60 = 130 > 100; the call fails with
InsufficientPaymentBalance. -/
theorem claim_c3_witness :
    allocate_payment_manual stC3w 1 [⟨1, 70⟩, ⟨2, 60⟩]
      = (stC3w, .error .insufficientPaymentBalance) := by
  refine claim_c3_insufficient stC3w 1 [⟨1, 70⟩, ⟨2, 60⟩] ⟨1, 1, 1, 100⟩
    (by decide) (by decide) (by decide) (by decide) ?_ (by decide)
  intro r hr
  fin_cases hr
  · exact ⟨⟨1, 1, 1, ChargeKind.rent, 80, ⟨2026, 2, 1⟩, 0⟩,
      by decide, by decide, by decide, by decide⟩
  · exact ⟨⟨2, 1, 1, ChargeKind.rent, 80, ⟨2026, 3, 1⟩, 1⟩,
      by decide, by decide, by decide, by decide⟩

lemma gen_creates (s : Store) (lid : Nat) (l : Lease) (year : Int) (month : Nat) (rent : Int)
    (hl : findLease s lid = some l)
    (hm : 1 ≤ month ∧ month ≤ 12)
    (hstart : ¬ Date.lt (month_start year month) l.start_date.replaceDay1)
    (hend : ∀ e, l.end_date = some e → ¬ Date.lt e.replaceDay1 (month_start year month))
    (hrent : l.rent_amount = some rent)
    (hpos : 0 < rent)
    (hnone : s.charges.find? (rentChargeKeyMatch l.organization_id l.id
      (lease_due_date_for_month l year month)) = none) :
    generate_monthly_rent_charge s lid year month
      = (appendCharge s (genCharge s l rent (lease_due_date_for_month l year month)),
         .ok ⟨l.id, lease_due_date_for_month l year month, true, s.nextChargeId⟩) := by
  have hga : get_rent_amount l = .ok rent := by
    unfold get_rent_amount
    rw [hrent]
  unfold generate_monthly_rent_charge
  rw [if_neg (by omega : ¬ (month < 1 ∨ month > 12)), hl]
  dsimp only
  rw [if_neg hstart]
  cases he : l.end_date with
  | none =>
    dsimp only
    rw [if_neg (by simp), hga]
    dsimp only
    rw [if_neg (by omega), hnone]
    rfl
  | some e =>
    dsimp only
    rw [if_neg (by simpa using hend e he), hga]
    dsimp only
    rw [if_neg (by omega), hnone]
    rfl

lemma gen_existing (s : Store) (lid : Nat) (l : Lease) (year : Int) (month : Nat)
    (rent : Int) (c : Charge)
    (hl : findLease s lid = some l)
    (hm : 1 ≤ month ∧ month ≤ 12)
    (hstart : ¬ Date.lt (month_start year month) l.start_date.replaceDay1)
    (hend : ∀ e, l.end_date = some e → ¬ Date.lt e.replaceDay1 (month_start year month))
    (hrent : l.rent_amount = some rent)
    (hpos : 0 < rent)
    (hfound : s.charges.find? (rentChargeKeyMatch l.organization_id l.id
      (lease_due_date_for_month l year month)) = some c) :
    generate_monthly_rent_charge s lid year month
      = (s, .ok ⟨l.id, lease_due_date_for_month l year month, false, c.id⟩) := by
  have hga : get_rent_amount l = .ok rent := by
    unfold get_rent_amount
    rw [hrent]
  unfold generate_monthly_rent_charge
  rw [if_neg (by omega : ¬ (month < 1 ∨ month > 12)), hl]
  dsimp only
  rw [if_neg hstart]
  cases he : l.end_date with
  | none =>
    dsimp only
    rw [if_neg (by simp), hga]
    dsimp only
    rw [if_neg (by omega), hfound]
  | some e =>
    dsimp only
    rw [if_neg (by simpa using hend e he), hga]
    dsimp only
    rw [if_neg (by omega), hfound]

lemma gen_missing_rent (s : Store) (lid : Nat) (l : Lease) (year : Int) (month : Nat)
    (hl : findLease s lid = some l) (hnone : l.rent_amount = none) :
    ∃ e, generate_monthly_rent_charge s lid year month = (s, .error e) := by
  have hga : get_rent_amount l = .error .missingRentAmount := by
    unfold get_rent_amount
    rw [hnone]
  unfold generate_monthly_rent_charge
  by_cases hm : month < 1 ∨ month > 12
  · exact ⟨.invalidMonth, by rw [if_pos hm]⟩
  · rw [if_neg hm, hl]
    dsimp only
    by_cases hstart : Date.lt (month_start year month) l.start_date.replaceDay1
    · exact ⟨.outOfLeaseTerm, by rw [if_pos hstart]⟩
    · rw [if_neg hstart]
      cases he : l.end_date with
      | none =>
        dsimp only
        exact ⟨.missingRentAmount, by rw [if_neg (by simp), hga]⟩
      | some e =>
        dsimp only
        by_cases hlt : Date.lt e.replaceDay1 (month_start year month)
        · exact ⟨.outOfLeaseTerm, by rw [if_pos (by simpa using hlt)]⟩
        · exact ⟨.missingRentAmount, by rw [if_neg (by simpa using hlt), hga]⟩

/-- **C6.**  On a valid in-term lease with no pre-existing matching charge,
running `generate_monthly_rent_charge` twice with identical arguments
returns `created = true` then `created = false`, the same charge id both
times, and leaves exactly one Charge with the (organization, lease, RENT,
due date) key in the store. -/
theorem claim_c6_generate_idempotent (s : Store) (lid : Nat) (l : Lease)
    (year : Int) (month : Nat) (rent : Int)
    (hl : findLease s lid = some l)
    (hm : 1 ≤ month ∧ month ≤ 12)
    (hstart : ¬ Date.lt (month_start year month) l.start_date.replaceDay1)
    (hend : ∀ e, l.end_date = some e → ¬ Date.lt e.replaceDay1 (month_start year month))
    (hrent : l.rent_amount = some rent)
    (hpos : 0 < rent)
    (hnone : s.charges.find? (rentChargeKeyMatch l.organization_id l.id
      (lease_due_date_for_month l year month)) = none) :
    generate_monthly_rent_charge s lid year month
      = (appendCharge s (genCharge s l rent (lease_due_date_for_month l year month)),
         .ok ⟨l.id, lease_due_date_for_month l year month, true, s.nextChargeId⟩) ∧
    generate_monthly_rent_charge
        (appendCharge s (genCharge s l rent (lease_due_date_for_month l year month)))
        lid year month
      = (appendCharge s (genCharge s l rent (lease_due_date_for_month l year month)),
         .ok ⟨l.id, lease_due_date_for_month l year month, false, s.nextChargeId⟩) ∧
    (appendCharge s (genCharge s l rent (lease_due_date_for_month l year month))).charges.countP
      (rentChargeKeyMatch l.organization_id l.id (lease_due_date_for_month l year month)) = 1 := by
  have hkey : rentChargeKeyMatch l.organization_id l.id (lease_due_date_for_month l year month)
      (genCharge s l rent (lease_due_date_for_month l year month)) = true := by
    simp [rentChargeKeyMatch, genCharge]
  refine ⟨gen_creates s lid l year month rent hl hm hstart hend hrent hpos hnone, ?_, ?_⟩
  · refine gen_existing
      (appendCharge s (genCharge s l rent (lease_due_date_for_month l year month)))
      lid l year month rent
      (genCharge s l rent (lease_due_date_for_month l year month))
      ?_ hm hstart hend hrent hpos ?_
    · exact hl
    · show (s.charges ++ [genCharge s l rent (lease_due_date_for_month l year month)]).find? _ = _
      rw [List.find?_append, hnone]
      simp only [Option.none_or]
      rw [List.find?_cons_of_pos _ hkey]
  · show (s.charges ++ [genCharge s l rent (lease_due_date_for_month l year month)]).countP _ = 1
    rw [List.countP_append, List.countP_eq_zero.2 (List.find?_eq_none.1 hnone)]
    simp [List.countP_cons, hkey]

/-- Witness for C6 at a concrete lease (rent $1200, due day 1, month
2026-03): created then found, same charge id 1, exactly one matching row. -/
theorem claim_c6_witness :
    generate_monthly_rent_charge stC6w 7 2026 3
      = (appendCharge stC6w (genCharge stC6w ⟨7, 1, ⟨2026, 1, 1⟩, none, some 1200, 1⟩ 1200 ⟨2026, 3, 1⟩),
         .ok ⟨7, ⟨2026, 3, 1⟩, true, 1⟩) ∧
    generate_monthly_rent_charge
        (appendCharge stC6w (genCharge stC6w ⟨7, 1, ⟨2026, 1, 1⟩, none, some 1200, 1⟩ 1200 ⟨2026, 3, 1⟩))
        7 2026 3
      = (appendCharge stC6w (genCharge stC6w ⟨7, 1, ⟨2026, 1, 1⟩, none, some 1200, 1⟩ 1200 ⟨2026, 3, 1⟩),
         .ok ⟨7, ⟨2026, 3, 1⟩, false, 1⟩) ∧
    (appendCharge stC6w (genCharge stC6w ⟨7, 1, ⟨2026, 1, 1⟩, none, some 1200, 1⟩ 1200 ⟨2026, 3, 1⟩)).charges.countP
      (rentChargeKeyMatch 1 7 ⟨2026, 3, 1⟩) = 1 := by
  have h := claim_c6_generate_idempotent stC6w 7 ⟨7, 1, ⟨2026, 1, 1⟩, none, some 1200, 1⟩
    2026 3 1200 (by decide) (by decide) (by decide) (fun e he => by cases he)
    (by decide) (by decide) (by decide)
  exact ⟨h.1, h.2.1, h.2.2⟩

/-- **C7.**  `run_current_month_for_org` never raises: with two leases in
the organization where the first has no resolvable rent amount and the
second is fully valid with no existing charge, the run reports
leases_processed = 2, charges_created = 1, and exactly one error entry. -/
theorem claim_c7_batch_resilient (s : Store) (orgId : Nat) (asOf : Date)
    (la lb : Lease) (rent : Int)
    (hfilter : s.leases.filter (fun l => l.organization_id == orgId) = [la, lb])
    (hla : findLease s la.id = some la)
    (hlaNone : la.rent_amount = none)
    (hlb : findLease s lb.id = some lb)
    (hm : 1 ≤ asOf.month ∧ asOf.month ≤ 12)
    (hstart : ¬ Date.lt (month_start asOf.year asOf.month) lb.start_date.replaceDay1)
    (hend : ∀ e, lb.end_date = some e →
      ¬ Date.lt e.replaceDay1 (month_start asOf.year asOf.month))
    (hrent : lb.rent_amount = some rent) (hpos : 0 < rent)
    (hnoc : s.charges.find? (rentChargeKeyMatch lb.organization_id lb.id
      (lease_due_date_for_month lb asOf.year asOf.month)) = none) :
    (run_current_month_for_org s orgId asOf).2.leases_processed = 2 ∧
    (run_current_month_for_org s orgId asOf).2.charges_created = 1 ∧
    (run_current_month_for_org s orgId asOf).2.charges_existing = 0 ∧
    (run_current_month_for_org s orgId asOf).2.errors.length = 1 := by
  obtain ⟨e, hgenA⟩ := gen_missing_rent s la.id la asOf.year asOf.month hla hlaNone
  have hgenB := gen_creates s lb.id lb asOf.year asOf.month rent hlb hm hstart hend
    hrent hpos hnoc
  unfold run_current_month_for_org
  dsimp only
  rw [hfilter]
  simp only [rentPostingLoop, hgenA, hgenB]
  simp

/-- Witness for C7: org 1 holds lease 8 (no rent amount) and lease 9
(rent $900); the run processes 2 leases, creates 1 charge and records
exactly 1 error. -/
theorem claim_c7_witness :
    (run_current_month_for_org stC7w 1 ⟨2026, 3, 15⟩).2.leases_processed = 2 ∧
    (run_current_month_for_org stC7w 1 ⟨2026, 3, 15⟩).2.charges_created = 1 ∧
    (run_current_month_for_org stC7w 1 ⟨2026, 3, 15⟩).2.charges_existing = 0 ∧
    (run_current_month_for_org stC7w 1 ⟨2026, 3, 15⟩).2.errors.length = 1 :=
  claim_c7_batch_resilient stC7w 1 ⟨2026, 3, 15⟩
    ⟨8, 1, ⟨2026, 1, 1⟩, none, none, 1⟩ ⟨9, 1, ⟨2026, 1, 1⟩, none, some 900, 1⟩ 900
    (by decide) (by decide) (by decide) (by decide) (by decide) (by decide)
    (fun e he => by cases he) (by decide) (by decide) (by decide)

/-- **C9 counterexample.**  Leases 5 and 3 have equal totals ($100); the
report lists lease 5 first because the sort is stable over the charge-scan
order — the smaller lease id 3 does not come first. -/
theorem claim_c9_counterexample :
    (compute_for_org stC9x 1 ⟨2026, 2, 1⟩).map (fun r => r.lease_id) = [5, 3] ∧
    (compute_for_org stC9x 1 ⟨2026, 2, 1⟩).map (fun r => r.total_outstanding) = [100, 100] ∧
    (3 : Nat) < 5 := by
  decide

/-- **C9 (amended).**  The rows of `compute_for_org` are ordered by total
outstanding descending; rows with equal totals keep the order in which
their leases first appeared in the charge scan (stable sort) — there is no
tie-break by lease id. -/
theorem claim_c9_sorted_desc (s : Store) (orgId : Nat) (asOf : Date) :
    List.Sorted rowTotalGE (compute_for_org s orgId asOf) := by
  unfold compute_for_org
  exact @List.sorted_insertionSort _ rowTotalGE _
    ⟨fun a b => le_total b.total_outstanding a.total_outstanding⟩
    ⟨fun a b c h1 h2 => le_trans h2 h1⟩ _

lemma lookupAgg_setAgg_self :
    ∀ (m : List (Nat × LeaseAgg)) (k : Nat) (v : LeaseAgg),
    lookupAgg (setAgg m k v) k = some v
  | [], k, v => by simp [setAgg, lookupAgg]
  | kv :: rest, k, v => by
    by_cases h : kv.1 = k
    · simp [setAgg, h, lookupAgg]
    · unfold setAgg
      rw [if_neg h]
      unfold lookupAgg
      rw [List.find?_cons_of_neg _ (by simpa using h)]
      exact lookupAgg_setAgg_self rest k v

lemma lookupAgg_setAgg_ne :
    ∀ (m : List (Nat × LeaseAgg)) (k k' : Nat) (v : LeaseAgg), k' ≠ k →
    lookupAgg (setAgg m k v) k' = lookupAgg m k'
  | [], k, k', v, h => by
    unfold setAgg lookupAgg
    rw [List.find?_cons_of_neg _ (by simpa using fun hx : k = k' => h hx.symm)]
  | kv :: rest, k, k', v, h => by
    by_cases hk : kv.1 = k
    · unfold setAgg
      rw [if_pos hk]
      unfold lookupAgg
      rw [List.find?_cons_of_neg _ (by simpa using fun hx : k = k' => h hx.symm),
        List.find?_cons_of_neg _ (by
          rw [hk]
          simpa using fun hx : k = k' => h hx.symm)]
    · unfold setAgg
      rw [if_neg hk]
      by_cases hx : kv.1 = k'
      · unfold lookupAgg
        rw [List.find?_cons_of_pos _ (by simpa using hx),
          List.find?_cons_of_pos _ (by simpa using hx)]
      · unfold lookupAgg
        rw [List.find?_cons_of_neg _ (by simpa using hx),
          List.find?_cons_of_neg _ (by simpa using hx)]
        exact lookupAgg_setAgg_ne rest k k' v h

lemma setAgg_keys_mem :
    ∀ (m : List (Nat × LeaseAgg)) (k : Nat) (v : LeaseAgg) (x : Nat),
    x ∈ (setAgg m k v).map Prod.fst ↔ x ∈ m.map Prod.fst ∨ x = k
  | [], k, v, x => by simp [setAgg]
  | kv :: rest, k, v, x => by
    by_cases h : kv.1 = k
    · unfold setAgg
      rw [if_pos h]
      simp only [List.map_cons, List.mem_cons, h]
      tauto
    · unfold setAgg
      rw [if_neg h]
      simp only [List.map_cons, List.mem_cons, setAgg_keys_mem rest k v x]
      tauto

lemma setAgg_keys_nodup :
    ∀ (m : List (Nat × LeaseAgg)) (k : Nat) (v : LeaseAgg),
    (m.map Prod.fst).Nodup → ((setAgg m k v).map Prod.fst).Nodup
  | [], k, v, _ => by simp [setAgg]
  | kv :: rest, k, v, hnd => by
    have hhead : kv.1 ∉ rest.map Prod.fst := (List.nodup_cons.1 (by simpa using hnd)).1
    have htail : (rest.map Prod.fst).Nodup := (List.nodup_cons.1 (by simpa using hnd)).2
    by_cases h : kv.1 = k
    · unfold setAgg
      rw [if_pos h, List.map_cons, List.nodup_cons]
      exact ⟨h ▸ hhead, htail⟩
    · unfold setAgg
      rw [if_neg h, List.map_cons, List.nodup_cons]
      refine ⟨?_, setAgg_keys_nodup rest k v htail⟩
      rw [setAgg_keys_mem]
      rintro (hx | hx)
      · exact hhead hx
      · exact h hx

lemma delinquencyFold_keys_nodup (s : Store) (asOf : Date) :
    ∀ (cs : List Charge) (m : List (Nat × LeaseAgg)),
    (m.map Prod.fst).Nodup → ((delinquencyFold s asOf cs m).map Prod.fst).Nodup
  | [], m, hnd => hnd
  | c :: cs, m, hnd => by
    unfold delinquencyFold
    by_cases h : c.amount - charge_allocated_total s c.id ≤ 0
    · rw [if_pos h]
      exact delinquencyFold_keys_nodup s asOf cs m hnd
    · rw [if_neg h]
      exact delinquencyFold_keys_nodup s asOf cs _ (setAgg_keys_nodup m _ _ hnd)

lemma lookupAgg_of_mem :
    ∀ (m : List (Nat × LeaseAgg)), (m.map Prod.fst).Nodup →
    ∀ kv ∈ m, lookupAgg m kv.1 = some kv.2
  | [], _, kv, h => absurd h (List.not_mem_nil kv)
  | hd :: rest, hnd, kv, hmem => by
    rcases List.mem_cons.1 hmem with rfl | hmem'
    · unfold lookupAgg
      rw [List.find?_cons_of_pos _ (by simp)]
      rfl
    · have hne : hd.1 ≠ kv.1 := by
        intro hx
        exact (List.nodup_cons.1 (by simpa using hnd)).1
          (hx ▸ List.mem_map_of_mem Prod.fst hmem')
      unfold lookupAgg
      rw [List.find?_cons_of_neg _ (by simpa using hne)]
      exact lookupAgg_of_mem rest (List.nodup_cons.1 (by simpa using hnd)).2 kv hmem'

lemma agingBucketIndex_le (d : Int) : agingBucketIndex d ≤ 3 := by
  unfold agingBucketIndex
  repeat' split
  all_goals omega

lemma addToBucket_total (r : LeaseAgg) (j : Nat) (x : Int) :
    (r.addToBucket j x).total = r.total := by
  unfold LeaseAgg.addToBucket
  repeat' split
  all_goals rfl

lemma addToBucket_b0 (r : LeaseAgg) (j : Nat) (x : Int) :
    (r.addToBucket j x).b0_30 = r.b0_30 + (if j = 0 then x else 0) := by
  unfold LeaseAgg.addToBucket
  by_cases h0 : j = 0
  · rw [if_pos h0, if_pos h0]
  · rw [if_neg h0, if_neg h0, add_zero]
    repeat' split
    all_goals rfl

lemma addToBucket_b1 (r : LeaseAgg) (j : Nat) (x : Int) :
    (r.addToBucket j x).b31_60 = r.b31_60 + (if j = 1 then x else 0) := by
  unfold LeaseAgg.addToBucket
  by_cases h0 : j = 0
  · rw [if_pos h0, if_neg (by omega : ¬ j = 1), add_zero]
  · rw [if_neg h0]
    by_cases h1 : j = 1
    · rw [if_pos h1, if_pos h1]
    · rw [if_neg h1, if_neg h1, add_zero]
      repeat' split
      all_goals rfl

lemma addToBucket_b2 (r : LeaseAgg) (j : Nat) (x : Int) :
    (r.addToBucket j x).b61_90 = r.b61_90 + (if j = 2 then x else 0) := by
  unfold LeaseAgg.addToBucket
  by_cases h0 : j = 0
  · rw [if_pos h0, if_neg (by omega : ¬ j = 2), add_zero]
  · rw [if_neg h0]
    by_cases h1 : j = 1
    · rw [if_pos h1, if_neg (by omega : ¬ j = 2), add_zero]
    · rw [if_neg h1]
      by_cases h2 : j = 2
      · rw [if_pos h2, if_pos h2]
      · rw [if_neg h2, if_neg h2, add_zero]

lemma addToBucket_b3 (r : LeaseAgg) (j : Nat) (x : Int) (hj : j ≤ 3) :
    (r.addToBucket j x).b90p = r.b90p + (if j = 3 then x else 0) := by
  unfold LeaseAgg.addToBucket
  by_cases h0 : j = 0
  · rw [if_pos h0, if_neg (by omega : ¬ j = 3), add_zero]
  · rw [if_neg h0]
    by_cases h1 : j = 1
    · rw [if_pos h1, if_neg (by omega : ¬ j = 3), add_zero]
    · rw [if_neg h1]
      by_cases h2 : j = 2
      · rw [if_pos h2, if_neg (by omega : ¬ j = 3), add_zero]
      · rw [if_neg h2, if_pos (by omega : j = 3)]

lemma delinquencyStep_total (asOf : Date) (m : List (Nat × LeaseAgg))
    (c : Charge) (rem : Int) :
    (delinquencyStep asOf m c rem).total
      = aggField (lookupAgg m c.lease_id) (fun r => r.total) + rem := by
  unfold delinquencyStep aggField
  rw [addToBucket_total]
  cases lookupAgg m c.lease_id <;> rfl

lemma delinquencyStep_b0 (asOf : Date) (m : List (Nat × LeaseAgg))
    (c : Charge) (rem : Int) :
    (delinquencyStep asOf m c rem).b0_30
      = aggField (lookupAgg m c.lease_id) (fun r => r.b0_30)
        + (if agingBucketIndex (daysBetween asOf c.due_date) = 0 then rem else 0) := by
  unfold delinquencyStep aggField
  rw [addToBucket_b0]
  cases lookupAgg m c.lease_id <;> rfl

lemma delinquencyStep_b1 (asOf : Date) (m : List (Nat × LeaseAgg))
    (c : Charge) (rem : Int) :
    (delinquencyStep asOf m c rem).b31_60
      = aggField (lookupAgg m c.lease_id) (fun r => r.b31_60)
        + (if agingBucketIndex (daysBetween asOf c.due_date) = 1 then rem else 0) := by
  unfold delinquencyStep aggField
  rw [addToBucket_b1]
  cases lookupAgg m c.lease_id <;> rfl

lemma delinquencyStep_b2 (asOf : Date) (m : List (Nat × LeaseAgg))
    (c : Charge) (rem : Int) :
    (delinquencyStep asOf m c rem).b61_90
      = aggField (lookupAgg m c.lease_id) (fun r => r.b61_90)
        + (if agingBucketIndex (daysBetween asOf c.due_date) = 2 then rem else 0) := by
  unfold delinquencyStep aggField
  rw [addToBucket_b2]
  cases lookupAgg m c.lease_id <;> rfl

lemma delinquencyStep_b3 (asOf : Date) (m : List (Nat × LeaseAgg))
    (c : Charge) (rem : Int) :
    (delinquencyStep asOf m c rem).b90p
      = aggField (lookupAgg m c.lease_id) (fun r => r.b90p)
        + (if agingBucketIndex (daysBetween asOf c.due_date) = 3 then rem else 0) := by
  unfold delinquencyStep aggField
  rw [addToBucket_b3 _ _ _ (agingBucketIndex_le _)]
  cases lookupAgg m c.lease_id <;> rfl

lemma contribTotal_cons (s : Store) (L : Nat) (c : Charge) (cs : List Charge) :
    contribTotal s L (c :: cs)
      = (if c.lease_id = L ∧ 0 < c.amount - charge_allocated_total s c.id
         then c.amount - charge_allocated_total s c.id else 0) + contribTotal s L cs := by
  unfold contribTotal
  rw [List.filter_cons]
  by_cases h : c.lease_id = L ∧ 0 < c.amount - charge_allocated_total s c.id
  · rw [if_pos (by simp [h.1, h.2]), if_pos h, List.map_cons, List.sum_cons]
  · rw [if_neg (by
        simp only [Bool.and_eq_true, beq_iff_eq, decide_eq_true_eq]
        exact fun hx => h hx),
      if_neg h, zero_add]

lemma contribFilter_cons (s : Store) (asOf : Date) (L k : Nat) (c : Charge)
    (cs : List Charge) :
    contribFilter s asOf L k (c :: cs)
      = (if c.lease_id = L ∧ 0 < c.amount - charge_allocated_total s c.id
           ∧ agingBucketIndex (daysBetween asOf c.due_date) = k
         then c.amount - charge_allocated_total s c.id else 0)
        + contribFilter s asOf L k cs := by
  unfold contribFilter
  rw [List.filter_cons]
  by_cases h : c.lease_id = L ∧ 0 < c.amount - charge_allocated_total s c.id
      ∧ agingBucketIndex (daysBetween asOf c.due_date) = k
  · rw [if_pos (by simp [h.1, h.2.1, h.2.2]), if_pos h, List.map_cons, List.sum_cons]
  · rw [if_neg (by
        simp only [Bool.and_eq_true, beq_iff_eq, decide_eq_true_eq]
        exact fun hx => h ⟨hx.1.1, hx.1.2, hx.2⟩),
      if_neg h, zero_add]

lemma aggField_some (r : LeaseAgg) (f : LeaseAgg → Int) : aggField (some r) f = f r := rfl

lemma delinquencyFold_spec (s : Store) (asOf : Date) :
    ∀ (cs : List Charge) (m : List (Nat × LeaseAgg)) (L : Nat),
    aggField (lookupAgg (delinquencyFold s asOf cs m) L) (fun r => r.total)
      = aggField (lookupAgg m L) (fun r => r.total) + contribTotal s L cs ∧
    aggField (lookupAgg (delinquencyFold s asOf cs m) L) (fun r => r.b0_30)
      = aggField (lookupAgg m L) (fun r => r.b0_30) + contribFilter s asOf L 0 cs ∧
    aggField (lookupAgg (delinquencyFold s asOf cs m) L) (fun r => r.b31_60)
      = aggField (lookupAgg m L) (fun r => r.b31_60) + contribFilter s asOf L 1 cs ∧
    aggField (lookupAgg (delinquencyFold s asOf cs m) L) (fun r => r.b61_90)
      = aggField (lookupAgg m L) (fun r => r.b61_90) + contribFilter s asOf L 2 cs ∧
    aggField (lookupAgg (delinquencyFold s asOf cs m) L) (fun r => r.b90p)
      = aggField (lookupAgg m L) (fun r => r.b90p) + contribFilter s asOf L 3 cs
  | [], m, L => by
    simp [delinquencyFold, contribTotal, contribFilter]
  | c :: cs, m, L => by
    by_cases hneg : c.amount - charge_allocated_total s c.id ≤ 0
    · have IH := delinquencyFold_spec s asOf cs m L
      simp only [delinquencyFold, if_pos hneg]
      refine ⟨?_, ?_, ?_, ?_, ?_⟩
      · rw [contribTotal_cons, if_neg (fun hx => absurd hx.2 (by omega)), zero_add]
        exact IH.1
      · rw [contribFilter_cons, if_neg (fun hx => absurd hx.2.1 (by omega)), zero_add]
        exact IH.2.1
      · rw [contribFilter_cons, if_neg (fun hx => absurd hx.2.1 (by omega)), zero_add]
        exact IH.2.2.1
      · rw [contribFilter_cons, if_neg (fun hx => absurd hx.2.1 (by omega)), zero_add]
        exact IH.2.2.2.1
      · rw [contribFilter_cons, if_neg (fun hx => absurd hx.2.1 (by omega)), zero_add]
        exact IH.2.2.2.2
    · have hpos : 0 < c.amount - charge_allocated_total s c.id := by omega
      have IH := delinquencyFold_spec s asOf cs
        (setAgg m c.lease_id
          (delinquencyStep asOf m c (c.amount - charge_allocated_total s c.id))) L
      simp only [delinquencyFold, if_neg hneg]
      by_cases hL : c.lease_id = L
      · subst hL
        have hlk := lookupAgg_setAgg_self m c.lease_id
          (delinquencyStep asOf m c (c.amount - charge_allocated_total s c.id))
        refine ⟨?_, ?_, ?_, ?_, ?_⟩
        · rw [IH.1, hlk]
          simp only [aggField_some]
          rw [delinquencyStep_total, contribTotal_cons, if_pos ⟨rfl, hpos⟩]
          omega
        · rw [IH.2.1, hlk]
          simp only [aggField_some]
          rw [delinquencyStep_b0, contribFilter_cons]
          by_cases hk : agingBucketIndex (daysBetween asOf c.due_date) = 0
          · rw [if_pos hk, if_pos ⟨rfl, hpos, hk⟩]
            omega
          · rw [if_neg hk, if_neg (fun hx => hk hx.2.2)]
            omega
        · rw [IH.2.2.1, hlk]
          simp only [aggField_some]
          rw [delinquencyStep_b1, contribFilter_cons]
          by_cases hk : agingBucketIndex (daysBetween asOf c.due_date) = 1
          · rw [if_pos hk, if_pos ⟨rfl, hpos, hk⟩]
            omega
          · rw [if_neg hk, if_neg (fun hx => hk hx.2.2)]
            omega
        · rw [IH.2.2.2.1, hlk]
          simp only [aggField_some]
          rw [delinquencyStep_b2, contribFilter_cons]
          by_cases hk : agingBucketIndex (daysBetween asOf c.due_date) = 2
          · rw [if_pos hk, if_pos ⟨rfl, hpos, hk⟩]
            omega
          · rw [if_neg hk, if_neg (fun hx => hk hx.2.2)]
            omega
        · rw [IH.2.2.2.2, hlk]
          simp only [aggField_some]
          rw [delinquencyStep_b3, contribFilter_cons]
          by_cases hk : agingBucketIndex (daysBetween asOf c.due_date) = 3
          · rw [if_pos hk, if_pos ⟨rfl, hpos, hk⟩]
            omega
          · rw [if_neg hk, if_neg (fun hx => hk hx.2.2)]
            omega
      · have hlk := lookupAgg_setAgg_ne m c.lease_id L
          (delinquencyStep asOf m c (c.amount - charge_allocated_total s c.id))
          (fun hx => hL hx.symm)
        refine ⟨?_, ?_, ?_, ?_, ?_⟩
        · rw [IH.1, hlk, contribTotal_cons, if_neg (fun hx => hL hx.1), zero_add]
        · rw [IH.2.1, hlk, contribFilter_cons, if_neg (fun hx => hL hx.1), zero_add]
        · rw [IH.2.2.1, hlk, contribFilter_cons, if_neg (fun hx => hL hx.1), zero_add]
        · rw [IH.2.2.2.1, hlk, contribFilter_cons, if_neg (fun hx => hL hx.1), zero_add]
        · rw [IH.2.2.2.2, hlk, contribFilter_cons, if_neg (fun hx => hL hx.1), zero_add]

lemma aggField_none (f : LeaseAgg → Int) : aggField none f = 0 := rfl

/-- **C8.**  Every row of the aging report carries, for each of the four
buckets, exactly the summed remaining balance of that lease's charges due
on or before `as_of` with positive remaining balance whose age
`as_of - due_date` selects that bucket (0-30, 31-60, 61-90, 90+ with
inclusive upper bounds); charges with remaining balance ≤ 0 are excluded
entirely, and the row total is the sum of the positive remainders. -/
theorem claim_c8_aging_buckets (s : Store) (orgId : Nat) (asOf : Date)
    (row : LeaseDelinquencyRow) (hrow : row ∈ compute_for_org s orgId asOf) :
    row.total_outstanding = leaseOutstanding s orgId asOf row.lease_id ∧
    row.buckets.current_0_30 = leaseBucketSum s orgId asOf row.lease_id 0 ∧
    row.buckets.days_31_60 = leaseBucketSum s orgId asOf row.lease_id 1 ∧
    row.buckets.days_61_90 = leaseBucketSum s orgId asOf row.lease_id 2 ∧
    row.buckets.days_90_plus = leaseBucketSum s orgId asOf row.lease_id 3 := by
  unfold compute_for_org at hrow
  dsimp only at hrow
  rw [(List.perm_insertionSort rowTotalGE _).mem_iff, List.mem_map] at hrow
  obtain ⟨kv, hkv, rfl⟩ := hrow
  have hnd := delinquencyFold_keys_nodup s asOf
    (s.charges.filter (fun c =>
      c.organization_id == orgId && decide (Date.le c.due_date asOf))) [] (by simp)
  have hlk := lookupAgg_of_mem _ hnd kv hkv
  have hspec := delinquencyFold_spec s asOf
    (s.charges.filter (fun c =>
      c.organization_id == orgId && decide (Date.le c.due_date asOf))) [] kv.1
  rw [hlk] at hspec
  have hnil : lookupAgg [] kv.1 = none := rfl
  rw [hnil] at hspec
  simp only [aggField_some, aggField_none, zero_add] at hspec
  exact ⟨hspec.1, hspec.2.1, hspec.2.2.1, hspec.2.2.2.1, hspec.2.2.2.2⟩

/-- Witness for C8: the spec's aging example as of 2026-05-01 — bucket
sums (100, 150, 300, 400) and a $950 total for lease 1, with the $50
allocation reducing the 31-60 bucket charge. -/
theorem claim_c8_witness :
    ((⟨1, 950, some ⟨2026, 1, 1⟩, ⟨100, 150, 300, 400⟩⟩ : LeaseDelinquencyRow)
        ∈ compute_for_org stC8w 1 ⟨2026, 5, 1⟩) ∧
    ((950 : Int) = leaseOutstanding stC8w 1 ⟨2026, 5, 1⟩ 1 ∧
     (100 : Int) = leaseBucketSum stC8w 1 ⟨2026, 5, 1⟩ 1 0 ∧
     (150 : Int) = leaseBucketSum stC8w 1 ⟨2026, 5, 1⟩ 1 1 ∧
     (300 : Int) = leaseBucketSum stC8w 1 ⟨2026, 5, 1⟩ 1 2 ∧
     (400 : Int) = leaseBucketSum stC8w 1 ⟨2026, 5, 1⟩ 1 3) := by
  refine ⟨by decide, ?_⟩
  exact claim_c8_aging_buckets stC8w 1 ⟨2026, 5, 1⟩
    ⟨1, 950, some ⟨2026, 1, 1⟩, ⟨100, 150, 300, 400⟩⟩ (by decide)
